import Mathlib

/-!
Shallow embedding of the Speculator-DNS codec and resolver
(src/message/byte_packet_buffer.rs, src/message/mod.rs, src/message/header.rs,
src/message/records/*.rs, src/server/mod.rs), together with theorems settling
the claims about it.

Modelling conventions:
* Rust `u8`/`u16`/`u32` values are `Nat`s; wherever the source masks or
  truncates (`as u8`, `& 0xFF`, `as u16`) the embedding masks explicitly.
* Rust `String`s are modelled as their UTF-8 byte sequences (`List Nat`);
  the claims only exercise ASCII content, on which this is exact.
  `str::ends_with` is byte-suffix, `split('.')` splits on byte 46.
* The 512-octet buffer is a total function `Nat → Nat` plus a cursor;
  all bound checks are done by the operations, exactly as in the source.
* Fallible operations return `Except Err α × Buffer`: the `Buffer` component
  is the state of the `&mut` buffer when the function returns (also on error,
  since Rust's early `return Err(e)` leaves the buffer as it then was).
* `read_qname`'s `loop` and the resolver's `loop`/recursion are embedded with
  an explicit fuel argument (the source loops are not structurally
  terminating); running out of fuel yields the artificial error
  `Err.fuelExhausted`, which no source path produces.
-/

namespace SpecDNS

/-- Error kinds of the source (`BytePacketBufferError` plus the ad-hoc
`std::io::Error` values constructed in the codec), collapsed to their kind:
`exceededJumpLimit` is the `InvalidData` error "Limit of 5 jumps exceeded"
built in `read_qname`, `unsupportedRecordType` the `InvalidData`
"Unsupported record type" of `DNSRecord::read`/`write` (`write` uses kind
`NotFound` for UNKNOWN records; we keep the record-level kind),
`invalidClass` the dead `InvalidData` branch of `DNSRecordPreamble::read`.
`fuelExhausted` is an artifact of the fuel embedding, produced by no
source path. -/
inductive Err where
  | overflow
  | unexpectedEof
  | invalidDomainNameFormat
  | exceededJumpLimit
  | unsupportedRecordType
  | unknownWriteUnsupported
  | invalidClass
  | fuelExhausted
deriving DecidableEq, Repr

/-- `BytePacketBuffer`: 512-octet datagram buffer with a cursor.
The octet store is a total function; only indices `< 512` are ever read
or written by the (bound-checked) operations. -/
structure Buffer where
  buf : Nat → Nat
  pos : Nat

/-- `BytePacketBuffer::new()`: zeroed buffer, cursor 0. -/
def Buffer.new : Buffer := ⟨fun _ => 0, 0⟩

/-- Convenience: a buffer whose first octets are the given list (rest 0),
cursor 0.  Used only to build concrete inputs for the theorems. -/
def Buffer.ofList (l : List Nat) : Buffer := ⟨fun i => l.getD i 0, 0⟩

/-- `BytePacketBuffer::step`: `self.pos += steps; Ok(())` — the source
performs no bound check whatsoever. -/
def Buffer.step (b : Buffer) (steps : Nat) : Except Err Unit × Buffer :=
  (.ok (), { b with pos := b.pos + steps })

/-- `BytePacketBuffer::seek`: `self.pos = pos; Ok(())` — no bound check. -/
def Buffer.seek (b : Buffer) (p : Nat) : Except Err Unit × Buffer :=
  (.ok (), { b with pos := p })

/-- `BytePacketBuffer::read_u8`. -/
def Buffer.readU8 (b : Buffer) : Except Err Nat × Buffer :=
  if b.pos ≥ 512 then (.error .unexpectedEof, b)
  else (.ok (b.buf b.pos), { b with pos := b.pos + 1 })

/-- `BytePacketBuffer::get_byte` (read at absolute position, cursor unmoved). -/
def Buffer.getByte (b : Buffer) (p : Nat) : Except Err Nat :=
  if p ≥ 512 then .error .unexpectedEof else .ok (b.buf p)

/-- `BytePacketBuffer::get_byte_range`: slice `buf[start..start+len]`,
rejected when `start + len >= 512`. -/
def Buffer.getByteRange (b : Buffer) (start len : Nat) : Except Err (List Nat) :=
  if start + len ≥ 512 then .error .unexpectedEof
  else .ok ((List.range len).map fun j => b.buf (start + j))

/-- `BytePacketBuffer::read_u16`: two octets, big-endian. -/
def Buffer.readU16 (b : Buffer) : Except Err Nat × Buffer :=
  match b.readU8 with
  | (.error e, b1) => (.error e, b1)
  | (.ok hi, b1) =>
    match b1.readU8 with
    | (.error e, b2) => (.error e, b2)
    | (.ok lo, b2) => (.ok (hi * 256 + lo), b2)

/-- `BytePacketBuffer::read_u32`: four octets, big-endian. -/
def Buffer.readU32 (b : Buffer) : Except Err Nat × Buffer :=
  match b.readU16 with
  | (.error e, b1) => (.error e, b1)
  | (.ok hi, b1) =>
    match b1.readU16 with
    | (.error e, b2) => (.error e, b2)
    | (.ok lo, b2) => (.ok (hi * 65536 + lo), b2)

/-- `BytePacketBuffer::read_u128`: sixteen octets, big-endian. -/
def Buffer.readU128 (b : Buffer) : Except Err Nat × Buffer :=
  match b.readU32 with
  | (.error e, b1) => (.error e, b1)
  | (.ok x0, b1) =>
    match b1.readU32 with
    | (.error e, b2) => (.error e, b2)
    | (.ok x1, b2) =>
      match b2.readU32 with
      | (.error e, b3) => (.error e, b3)
      | (.ok x2, b3) =>
        match b3.readU32 with
        | (.error e, b4) => (.error e, b4)
        | (.ok x3, b4) =>
          (.ok (((x0 * 4294967296 + x1) * 4294967296 + x2) * 4294967296 + x3), b4)

/-- `BytePacketBuffer::write_u8`: bound-checked store, cursor +1. -/
def Buffer.writeU8 (b : Buffer) (v : Nat) : Except Err Unit × Buffer :=
  if b.pos ≥ 512 then (.error .overflow, b)
  else (.ok (), ⟨fun i => if i = b.pos then v else b.buf i, b.pos + 1⟩)

/-- `BytePacketBuffer::write_u16`: big-endian, each octet masked `& 0xFF`. -/
def Buffer.writeU16 (b : Buffer) (v : Nat) : Except Err Unit × Buffer :=
  match b.writeU8 ((v / 256) % 256) with
  | (.error e, b1) => (.error e, b1)
  | (.ok _, b1) => b1.writeU8 (v % 256)

/-- `BytePacketBuffer::write_u32`: big-endian, four octets. -/
def Buffer.writeU32 (b : Buffer) (v : Nat) : Except Err Unit × Buffer :=
  match b.writeU16 ((v / 65536) % 65536) with
  | (.error e, b1) => (.error e, b1)
  | (.ok _, b1) => b1.writeU16 (v % 65536)

/-- `BytePacketBuffer::write_u128`: big-endian, sixteen octets. -/
def Buffer.writeU128 (b : Buffer) (v : Nat) : Except Err Unit × Buffer :=
  match b.writeU32 ((v / 79228162514264337593543950336) % 4294967296) with
  | (.error e, b1) => (.error e, b1)
  | (.ok _, b1) =>
    match b1.writeU32 ((v / 18446744073709551616) % 4294967296) with
    | (.error e, b2) => (.error e, b2)
    | (.ok _, b2) =>
      match b2.writeU32 ((v / 4294967296) % 4294967296) with
      | (.error e, b3) => (.error e, b3)
      | (.ok _, b3) => b3.writeU32 (v % 4294967296)

/-- Byte-wise ASCII lowercasing: `str::to_lowercase` restricted to ASCII,
which is exact on the ASCII inputs the claims quantify over. -/
def lowerByte (b : Nat) : Nat := if 65 ≤ b ∧ b ≤ 90 then b + 32 else b

/-- The `max_jumps` constant of `read_qname`. -/
def maxJumps : Nat := 5

/-- The loop of `BytePacketBuffer::read_qname`, with its local state
(`pos`, `jumped`, `jumps_performed`, `delim`, the output string `acc`)
made explicit and an added fuel argument (the Rust `loop` is unbounded).
`b` is the `&mut self` buffer, whose cursor the loop `seek`s. -/
def readQnameLoop (b : Buffer) (p : Nat) (jumped : Bool) (jumps : Nat)
    (delim acc : List Nat) : Nat → Except Err (List Nat) × Buffer
  | 0 => (.error .fuelExhausted, b)
  | fuel + 1 =>
    if jumps > maxJumps then (.error .exceededJumpLimit, b)
    else
      match b.getByte p with
      | .error e => (.error e, b)
      | .ok len =>
        if len &&& 0xC0 = 0xC0 then
          -- pointer: on the first jump (`if !jumped`), seek the shared
          -- cursor past it
          let b1 := bif jumped then b else { b with pos := p + 2 }
          match b1.getByte (p + 1) with
          | .error e => (.error e, b1)
          | .ok b2 =>
            let offset := ((len ^^^ 0xC0) <<< 8) ||| b2
            readQnameLoop b1 offset true (jumps + 1) delim acc fuel
        else
          if len = 0 then
            -- terminator: `pos += 1; break`, then `seek(pos)` `if !jumped`
            (.ok acc, bif jumped then b else { b with pos := p + 1 })
          else
            match b.getByteRange (p + 1) len with
            | .error e => (.error e, b)
            | .ok label =>
              readQnameLoop b (p + 1 + len) jumped jumps
                [46] (acc ++ delim ++ label.map lowerByte) fuel

/-- Fuel sufficient for every terminating run of the `read_qname` loop
(at most `maxJumps + 2` pointer hops, each followed by at most 512
label steps inside the 512-octet datagram). -/
def qnameFuel : Nat := 4096

/-- `BytePacketBuffer::read_qname`: decode a (possibly compressed) name,
appending to `outstr`. -/
def Buffer.readQname (b : Buffer) (outstr : List Nat) :
    Except Err (List Nat) × Buffer :=
  readQnameLoop b b.pos false 0 [] outstr qnameFuel

/-- Rust `str::split('.')` on the byte representation: split on byte 46
(the result is never empty; a non-dot byte is prepended to the first
piece of the remainder's split). -/
def splitDot : List Nat → List (List Nat)
  | [] => [[]]
  | c :: rest =>
    if c = 46 then [] :: splitDot rest
    else (c :: (splitDot rest).headD []) :: (splitDot rest).tail

/-- Write the raw octets of one label (`for &b in label.as_bytes()`). -/
def writeBytes (b : Buffer) : List Nat → Except Err Unit × Buffer
  | [] => (.ok (), b)
  | v :: rest =>
    match b.writeU8 v with
    | (.error e, b1) => (.error e, b1)
    | (.ok _, b1) => writeBytes b1 rest

/-- The per-label body of `write_qname`'s `for` loop: length check
(`> 0x3F` is `InvalidDomainNameFormat`), length octet, label octets. -/
def writeLabel (b : Buffer) (label : List Nat) : Except Err Unit × Buffer :=
  if label.length > 63 then (.error .invalidDomainNameFormat, b)
  else
    match b.writeU8 label.length with
    | (.error e, b1) => (.error e, b1)
    | (.ok _, b1) => writeBytes b1 label

/-- `write_qname`'s `for` loop over the (nonempty) labels. -/
def writeLabels (b : Buffer) : List (List Nat) → Except Err Unit × Buffer
  | [] => (.ok (), b)
  | l :: rest =>
    match writeLabel b l with
    | (.error e, b1) => (.error e, b1)
    | (.ok _, b1) => writeLabels b1 rest

/-- `BytePacketBuffer::write_qname`: length-prefixed labels
(split on `'.'`, empty labels filtered out) and a zero terminator. -/
def Buffer.writeQname (b : Buffer) (qname : List Nat) : Except Err Unit × Buffer :=
  match writeLabels b ((splitDot qname).filter fun l => !l.isEmpty) with
  | (.error e, b1) => (.error e, b1)
  | (.ok _, b1) => b1.writeU8 0

/-- A Rust `String` in byte form; names (QNAMEs) are such strings with
dots (byte 46) separating labels. -/
abbrev Name := List Nat

/-- Convenience: the byte form of an ASCII literal, for concrete inputs. -/
def asBytes (s : String) : Name := s.toList.map Char.toNat

/-- `QRType` (src/message/mod.rs): record/query type tags, with unknown
16-bit codes carried in `UNKNOWN`. -/
inductive QRType where
  | UNKNOWN (x : Nat)
  | A | NS | CNAME | SOA | PTR | MX | TXT | AAAA | SRV | CAA
deriving DecidableEq, Repr

/-- `QRType::to_u16`. -/
def QRType.toU16 : QRType → Nat
  | .A => 1
  | .NS => 2
  | .CNAME => 5
  | .SOA => 6
  | .PTR => 12
  | .MX => 15
  | .TXT => 16
  | .AAAA => 28
  | .SRV => 33
  | .CAA => 257
  | .UNKNOWN x => x

/-- `QRType::from_u16`. -/
def QRType.fromU16 (value : Nat) : QRType :=
  if value = 1 then .A
  else if value = 2 then .NS
  else if value = 5 then .CNAME
  else if value = 6 then .SOA
  else if value = 12 then .PTR
  else if value = 15 then .MX
  else if value = 16 then .TXT
  else if value = 28 then .AAAA
  else if value = 33 then .SRV
  else if value = 257 then .CAA
  else .UNKNOWN value

/-- `QRClass` (src/message/mod.rs). -/
inductive QRClass where
  | IN | CH | HS | ANY
deriving DecidableEq, Repr

/-- `QRClass::from_u16` (partial: unknown codes are `None`). -/
def QRClass.fromU16 (value : Nat) : Option QRClass :=
  if value = 1 then some .IN
  else if value = 3 then some .CH
  else if value = 4 then some .HS
  else if value = 255 then some .ANY
  else none

/-- `QRClass::to_u16`. -/
def QRClass.toU16 : QRClass → Nat
  | .IN => 1
  | .CH => 3
  | .HS => 4
  | .ANY => 255

/-- `DNSQuestion`. -/
structure DNSQuestion where
  qname : Name
  qtype : QRType
  qclass : QRClass
deriving DecidableEq, Repr

/-- `DNSQuestion::read`: appends the name into `self.qname`, parses the
qtype, reads the 16-bit qclass but binds it to `_` (the parsed class is
discarded; `self.qclass` is left as it was). -/
def DNSQuestion.read (q : DNSQuestion) (b : Buffer) :
    Except Err DNSQuestion × Buffer :=
  match b.readQname q.qname with
  | (.error e, b1) => (.error e, b1)
  | (.ok qname, b1) =>
    match b1.readU16 with
    | (.error e, b2) => (.error e, b2)
    | (.ok tnum, b2) =>
      match b2.readU16 with
      | (.error e, b3) => (.error e, b3)
      | (.ok _, b3) =>
        (.ok { q with qname := qname, qtype := QRType.fromU16 tnum }, b3)

/-- `DNSQuestion::write`: name, qtype, then the literal constant 1
(`buffer.write_u16(1)`) in the class position, whatever `self.qclass` is. -/
def DNSQuestion.write (q : DNSQuestion) (b : Buffer) : Except Err Unit × Buffer :=
  match b.writeQname q.qname with
  | (.error e, b1) => (.error e, b1)
  | (.ok _, b1) =>
    match b1.writeU16 q.qtype.toU16 with
    | (.error e, b2) => (.error e, b2)
    | (.ok _, b2) => b2.writeU16 1

/-- IPv4 address (`std::net::Ipv4Addr`), four octets. -/
structure Ipv4 where
  o0 : Nat
  o1 : Nat
  o2 : Nat
  o3 : Nat
deriving DecidableEq, Repr

/-- IPv6 address (`std::net::Ipv6Addr`), eight 16-bit segments. -/
structure Ipv6 where
  s0 : Nat
  s1 : Nat
  s2 : Nat
  s3 : Nat
  s4 : Nat
  s5 : Nat
  s6 : Nat
  s7 : Nat
deriving DecidableEq, Repr

/-- `DNSRecordPreamble` (src/message/records/mod.rs). -/
structure DNSRecordPreamble where
  name : Name
  rtype : QRType
  class' : QRClass
  ttl : Nat
  rdlength : Nat
deriving DecidableEq, Repr

/-- `DNSRecordPreamble::read`: owner name, 16-bit type, then — without
touching the buffer — `let qclass_num: u16 = 1;` mapped through
`QRClass::from_u16` (the `None` branch is dead), then 32-bit TTL and
16-bit rdlength.  The wire's class octets are never consumed. -/
def preambleRead (b : Buffer) :
    Except Err (Name × QRType × QRClass × Nat × Nat) × Buffer :=
  match b.readQname [] with
  | (.error e, b1) => (.error e, b1)
  | (.ok domain, b1) =>
    match b1.readU16 with
    | (.error e, b2) => (.error e, b2)
    | (.ok qtypeNum, b2) =>
      let qtype := QRType.fromU16 qtypeNum
      let qclassNum : Nat := 1
      match QRClass.fromU16 qclassNum with
      | none => (.error .invalidClass, b2)
      | some cls =>
        match b2.readU32 with
        | (.error e, b3) => (.error e, b3)
        | (.ok ttl, b3) =>
          match b3.readU16 with
          | (.error e, b4) => (.error e, b4)
          | (.ok dataLen, b4) => (.ok (domain, qtype, cls, ttl, dataLen), b4)

/-- `DNSRecordPreamble::write`: name, type, class, TTL, rdlength. -/
def DNSRecordPreamble.write (p : DNSRecordPreamble) (b : Buffer) :
    Except Err Unit × Buffer :=
  match b.writeQname p.name with
  | (.error e, b1) => (.error e, b1)
  | (.ok _, b1) =>
    match b1.writeU16 p.rtype.toU16 with
    | (.error e, b2) => (.error e, b2)
    | (.ok _, b2) =>
      match b2.writeU16 p.class'.toU16 with
      | (.error e, b3) => (.error e, b3)
      | (.ok _, b3) =>
        match b3.writeU32 p.ttl with
        | (.error e, b4) => (.error e, b4)
        | (.ok _, b4) => b4.writeU16 p.rdlength

/-- `DNSARecord`. -/
structure DNSARecord where
  preamble : DNSRecordPreamble
  rdata : Ipv4
deriving DecidableEq, Repr

/-- `DNSNSRecord`. -/
structure DNSNSRecord where
  preamble : DNSRecordPreamble
  rdata : Name
deriving DecidableEq, Repr

/-- `DNSCNAMERecord`. -/
structure DNSCNAMERecord where
  preamble : DNSRecordPreamble
  rdata : Name
deriving DecidableEq, Repr

/-- `DNSMXRecord`. -/
structure DNSMXRecord where
  preamble : DNSRecordPreamble
  preference : Nat
  exchange : Name
deriving DecidableEq, Repr

/-- `DNSTXTRecord` (`text` is the Rust `String` as bytes). -/
structure DNSTXTRecord where
  preamble : DNSRecordPreamble
  text : List Nat
deriving DecidableEq, Repr

/-- `DNSAAAARecord`. -/
structure DNSAAAARecord where
  preamble : DNSRecordPreamble
  address : Ipv6
deriving DecidableEq, Repr

/-- `DNSSOARecord`. -/
structure DNSSOARecord where
  preamble : DNSRecordPreamble
  mname : Name
  rname : Name
  serial : Nat
  refresh : Nat
  retry : Nat
  expire : Nat
  minimum : Nat
deriving DecidableEq, Repr

/-- `DNSCAARecord`. -/
structure DNSCAARecord where
  preamble : DNSRecordPreamble
  flags : Nat
  tag : List Nat
  value : List Nat
deriving DecidableEq, Repr

/-- `DNSSRVRecord`. -/
structure DNSSRVRecord where
  preamble : DNSRecordPreamble
  priority : Nat
  weight : Nat
  port : Nat
  target : Name
deriving DecidableEq, Repr

/-- `DNSPTRRecord`. -/
structure DNSPTRRecord where
  preamble : DNSRecordPreamble
  ptrdname : Name
deriving DecidableEq, Repr

/-- `DNSUNKNOWNRecord`: preamble plus the (always `Some ""`) raw data. -/
structure DNSUNKNOWNRecord where
  preamble : DNSRecordPreamble
  rdata : Option (List Nat)
deriving DecidableEq, Repr

/-- `DNSRecord` (src/message/records/mod.rs): the tagged sum of variants. -/
inductive DNSRecord where
  | A (r : DNSARecord)
  | CNAME (r : DNSCNAMERecord)
  | NS (r : DNSNSRecord)
  | MX (r : DNSMXRecord)
  | TXT (r : DNSTXTRecord)
  | AAAA (r : DNSAAAARecord)
  | SOA (r : DNSSOARecord)
  | CAA (r : DNSCAARecord)
  | SRV (r : DNSSRVRecord)
  | PTR (r : DNSPTRRecord)
  | UNKNOWN (r : DNSUNKNOWNRecord)
deriving DecidableEq, Repr

/-- `DNSARecord::read`: a 32-bit value split into four octets. -/
def DNSARecord.read (b : Buffer) (domain : Name) (qclass : QRClass) (ttl : Nat)
    (_dataLen : Nat) : Except Err DNSRecord × Buffer :=
  match b.readU32 with
  | (.error e, b1) => (.error e, b1)
  | (.ok raw, b1) =>
    let addr : Ipv4 :=
      ⟨(raw / 16777216) % 256, (raw / 65536) % 256, (raw / 256) % 256, raw % 256⟩
    (.ok (.A ⟨⟨domain, .A, qclass, ttl, 4⟩, addr⟩), b1)

/-- `DNSNSRecord::read`: one name. -/
def DNSNSRecord.read (b : Buffer) (domain : Name) (qclass : QRClass) (ttl : Nat)
    (_dataLen : Nat) : Except Err DNSRecord × Buffer :=
  match b.readQname [] with
  | (.error e, b1) => (.error e, b1)
  | (.ok nsDomain, b1) =>
    (.ok (.NS ⟨⟨domain, .NS, qclass, ttl, nsDomain.length⟩, nsDomain⟩), b1)

/-- `DNSCNAMERecord::read`: one name. -/
def DNSCNAMERecord.read (b : Buffer) (domain : Name) (qclass : QRClass) (ttl : Nat)
    (_dataLen : Nat) : Except Err DNSRecord × Buffer :=
  match b.readQname [] with
  | (.error e, b1) => (.error e, b1)
  | (.ok canonical, b1) =>
    (.ok (.CNAME ⟨⟨domain, .CNAME, qclass, ttl, canonical.length⟩, canonical⟩), b1)

/-- `DNSPTRRecord::read`: one name. -/
def DNSPTRRecord.read (b : Buffer) (domain : Name) (qclass : QRClass) (ttl : Nat)
    (_dataLen : Nat) : Except Err DNSRecord × Buffer :=
  match b.readQname [] with
  | (.error e, b1) => (.error e, b1)
  | (.ok ptrdname, b1) =>
    (.ok (.PTR ⟨⟨domain, .PTR, qclass, ttl, 0⟩, ptrdname⟩), b1)

/-- `DNSMXRecord::read`: 16-bit preference, then a name. -/
def DNSMXRecord.read (b : Buffer) (domain : Name) (qclass : QRClass) (ttl : Nat)
    (_dataLen : Nat) : Except Err DNSRecord × Buffer :=
  match b.readU16 with
  | (.error e, b1) => (.error e, b1)
  | (.ok preference, b1) =>
    match b1.readQname [] with
    | (.error e, b2) => (.error e, b2)
    | (.ok exchange, b2) =>
      (.ok (.MX ⟨⟨domain, .MX, qclass, ttl, 0⟩, preference, exchange⟩), b2)

/-- The `while i <= n { push(read_u8()?) }` loops of the TXT and CAA
readers: they read `n + 1` octets (the source's off-by-one included). -/
def readBytesUpTo (b : Buffer) (acc : List Nat) : Nat → Except Err (List Nat) × Buffer
  | 0 => (.ok acc, b)
  | n + 1 =>
    match b.readU8 with
    | (.error e, b1) => (.error e, b1)
    | (.ok v, b1) => readBytesUpTo b1 (acc ++ [v]) n

/-- `DNSTXTRecord::read`: `while i <= data_len` pushes `data_len + 1`
octets into `text`. -/
def DNSTXTRecord.read (b : Buffer) (domain : Name) (qclass : QRClass) (ttl : Nat)
    (dataLen : Nat) : Except Err DNSRecord × Buffer :=
  match readBytesUpTo b [] (dataLen + 1) with
  | (.error e, b1) => (.error e, b1)
  | (.ok text, b1) =>
    (.ok (.TXT ⟨⟨domain, .TXT, qclass, ttl, 0⟩, text⟩), b1)

/-- `DNSAAAARecord::read`: a 128-bit value split into eight segments. -/
def DNSAAAARecord.read (b : Buffer) (domain : Name) (qclass : QRClass) (ttl : Nat)
    (_dataLen : Nat) : Except Err DNSRecord × Buffer :=
  match b.readU128 with
  | (.error e, b1) => (.error e, b1)
  | (.ok raw, b1) =>
    let seg := fun (k : Nat) => (raw / 65536 ^ k) % 65536
    let addr : Ipv6 := ⟨seg 7, seg 6, seg 5, seg 4, seg 3, seg 2, seg 1, seg 0⟩
    (.ok (.AAAA ⟨⟨domain, .AAAA, qclass, ttl, 16⟩, addr⟩), b1)

/-- `DNSSOARecord::read`: two names whose errors are discarded by
`let _ = ...`, then five 32-bit fields.  Deviation, unexercised by any
claim: on a failed `read_qname` the source keeps the labels already
appended to the string, while this model keeps the empty string (our
`readQname` does not return the partial accumulator on error). -/
def DNSSOARecord.read (b : Buffer) (domain : Name) (qclass : QRClass) (ttl : Nat)
    (_dataLen : Nat) : Except Err DNSRecord × Buffer :=
  let (mres, b1) := b.readQname []
  let mname := match mres with | .ok s => s | .error _ => []
  let (rres, b2) := b1.readQname []
  let rname := match rres with | .ok s => s | .error _ => []
  match b2.readU32 with
  | (.error e, b3) => (.error e, b3)
  | (.ok serial, b3) =>
    match b3.readU32 with
    | (.error e, b4) => (.error e, b4)
    | (.ok refresh, b4) =>
      match b4.readU32 with
      | (.error e, b5) => (.error e, b5)
      | (.ok retry, b5) =>
        match b5.readU32 with
        | (.error e, b6) => (.error e, b6)
        | (.ok expire, b6) =>
          match b6.readU32 with
          | (.error e, b7) => (.error e, b7)
          | (.ok minimum, b7) =>
            (.ok (.SOA ⟨⟨domain, .SOA, qclass, ttl, 0⟩,
              mname, rname, serial, refresh, retry, expire, minimum⟩), b7)

/-- `DNSCAARecord::read`: flags octet, tag-length octet, then the two
`while`-loops, which read `tag_len + 1` and `(data_len - tag_len) + 1`
octets — both appended to `tag` (the source pushes the value bytes into
`tag` as well, leaving `value` empty).  Deviations, unexercised by any
claim: the `u16` subtraction `data_len - tag_len` is modelled as
truncated `Nat` subtraction where Rust would wrap (or panic in debug)
on underflow, and for `tag_len = 255` the source's `i as u8 <= tag_len`
comparison wraps and loops until an EOF error where this model reads
256 octets. -/
def DNSCAARecord.read (b : Buffer) (domain : Name) (qclass : QRClass) (ttl : Nat)
    (dataLen : Nat) : Except Err DNSRecord × Buffer :=
  match b.readU8 with
  | (.error e, b1) => (.error e, b1)
  | (.ok flags, b1) =>
    match b1.readU8 with
    | (.error e, b2) => (.error e, b2)
    | (.ok tagLen, b2) =>
      match readBytesUpTo b2 [] (tagLen + 1) with
      | (.error e, b3) => (.error e, b3)
      | (.ok tag, b3) =>
        match readBytesUpTo b3 tag ((dataLen - tagLen) + 1) with
        | (.error e, b4) => (.error e, b4)
        | (.ok tag', b4) =>
          (.ok (.CAA ⟨⟨domain, .CAA, qclass, ttl, 0⟩, flags, tag', []⟩), b4)

/-- `DNSSRVRecord::read`: three 16-bit fields, then a name. -/
def DNSSRVRecord.read (b : Buffer) (domain : Name) (qclass : QRClass) (ttl : Nat)
    (_dataLen : Nat) : Except Err DNSRecord × Buffer :=
  match b.readU16 with
  | (.error e, b1) => (.error e, b1)
  | (.ok priority, b1) =>
    match b1.readU16 with
    | (.error e, b2) => (.error e, b2)
    | (.ok weight, b2) =>
      match b2.readU16 with
      | (.error e, b3) => (.error e, b3)
      | (.ok port, b3) =>
        match b3.readQname [] with
        | (.error e, b4) => (.error e, b4)
        | (.ok target, b4) =>
          (.ok (.SRV ⟨⟨domain, .SRV, qclass, ttl, 0⟩,
            priority, weight, port, target⟩), b4)

/-- `DNSUNKNOWNRecord::read`: `step(data_len)` over the rdata, then an
UNKNOWN record whose preamble has `rtype = UNKNOWN(0)`, `rdlength = 0`
and `rdata = Some("")`. -/
def DNSUNKNOWNRecord.read (b : Buffer) (domain : Name) (qclass : QRClass)
    (ttl : Nat) (dataLen : Nat) : Except Err DNSRecord × Buffer :=
  match b.step dataLen with
  | (.error e, b1) => (.error e, b1)
  | (.ok _, b1) =>
    (.ok (.UNKNOWN ⟨⟨domain, .UNKNOWN 0, qclass, ttl, 0⟩, some []⟩), b1)

/-- `DNSRecord::read`: preamble, then dispatch on the type tag.  Only the
literal pattern `QRType::UNKNOWN(0)` reaches the UNKNOWN reader; every
other unknown code falls to the catch-all `Err("Unsupported record type")`. -/
def DNSRecord.read (b : Buffer) : Except Err DNSRecord × Buffer :=
  match preambleRead b with
  | (.error e, b1) => (.error e, b1)
  | (.ok (domain, qtype, qclass, ttl, dataLen), b1) =>
    match qtype with
    | .A => DNSARecord.read b1 domain qclass ttl dataLen
    | .CNAME => DNSCNAMERecord.read b1 domain qclass ttl dataLen
    | .NS => DNSNSRecord.read b1 domain qclass ttl dataLen
    | .MX => DNSMXRecord.read b1 domain qclass ttl dataLen
    | .TXT => DNSTXTRecord.read b1 domain qclass ttl dataLen
    | .AAAA => DNSAAAARecord.read b1 domain qclass ttl dataLen
    | .SOA => DNSSOARecord.read b1 domain qclass ttl dataLen
    | .CAA => DNSCAARecord.read b1 domain qclass ttl dataLen
    | .SRV => DNSSRVRecord.read b1 domain qclass ttl dataLen
    | .PTR => DNSPTRRecord.read b1 domain qclass ttl dataLen
    | .UNKNOWN 0 => DNSUNKNOWNRecord.read b1 domain qclass ttl dataLen
    | .UNKNOWN (_ + 1) => (.error .unsupportedRecordType, b1)

/-- The identical opening sequence of the NS/CNAME/PTR/MX/SOA/SRV/TXT
writers: owner name, type code, class code, TTL (each of those writers
inlines exactly these four writes). -/
def writeNameTypeClassTtl (b : Buffer) (p : DNSRecordPreamble) :
    Except Err Unit × Buffer :=
  match b.writeQname p.name with
  | (.error e, b1) => (.error e, b1)
  | (.ok _, b1) =>
    match b1.writeU16 p.rtype.toU16 with
    | (.error e, b2) => (.error e, b2)
    | (.ok _, b2) =>
      match b2.writeU16 p.class'.toU16 with
      | (.error e, b3) => (.error e, b3)
      | (.ok _, b3) => b3.writeU32 p.ttl

/-- The rdlength patch closing the variable-length writers: remember
`len_pos`, write the body, measure it, seek back, write the measured
length, seek forward again.  `body` is the writer for the record body. -/
def writeWithRdlength (b : Buffer) (body : Buffer → Except Err Unit × Buffer) :
    Except Err Unit × Buffer :=
  let lenPos := b.pos
  match b.writeU16 0 with
  | (.error e, b1) => (.error e, b1)
  | (.ok _, b1) =>
    let startPos := b1.pos
    match body b1 with
    | (.error e, b2) => (.error e, b2)
    | (.ok _, b2) =>
      let endPos := b2.pos
      let rdlength := endPos - startPos
      match (b2.seek lenPos).2.writeU16 rdlength with
      | (.error e, b3) => (.error e, b3)
      | (.ok _, b3) => b3.seek endPos

/-- `DNSARecord::write`: preamble (with rdlength 4), then the four
address octets. -/
def DNSARecord.write (r : DNSARecord) (b : Buffer) : Except Err Unit × Buffer :=
  match DNSRecordPreamble.write
      ⟨r.preamble.name, r.preamble.rtype, r.preamble.class', r.preamble.ttl, 4⟩ b with
  | (.error e, b1) => (.error e, b1)
  | (.ok _, b1) => writeBytes b1 [r.rdata.o0, r.rdata.o1, r.rdata.o2, r.rdata.o3]

/-- `DNSNSRecord::write`. -/
def DNSNSRecord.write (r : DNSNSRecord) (b : Buffer) : Except Err Unit × Buffer :=
  match writeNameTypeClassTtl b r.preamble with
  | (.error e, b1) => (.error e, b1)
  | (.ok _, b1) => writeWithRdlength b1 fun b2 => b2.writeQname r.rdata

/-- `DNSCNAMERecord::write`. -/
def DNSCNAMERecord.write (r : DNSCNAMERecord) (b : Buffer) : Except Err Unit × Buffer :=
  match writeNameTypeClassTtl b r.preamble with
  | (.error e, b1) => (.error e, b1)
  | (.ok _, b1) => writeWithRdlength b1 fun b2 => b2.writeQname r.rdata

/-- `DNSPTRRecord::write`. -/
def DNSPTRRecord.write (r : DNSPTRRecord) (b : Buffer) : Except Err Unit × Buffer :=
  match writeNameTypeClassTtl b r.preamble with
  | (.error e, b1) => (.error e, b1)
  | (.ok _, b1) => writeWithRdlength b1 fun b2 => b2.writeQname r.ptrdname

/-- `DNSMXRecord::write`. -/
def DNSMXRecord.write (r : DNSMXRecord) (b : Buffer) : Except Err Unit × Buffer :=
  match writeNameTypeClassTtl b r.preamble with
  | (.error e, b1) => (.error e, b1)
  | (.ok _, b1) =>
    writeWithRdlength b1 fun b2 =>
      match b2.writeU16 r.preference with
      | (.error e, b3) => (.error e, b3)
      | (.ok _, b3) => b3.writeQname r.exchange

/-- `DNSSOARecord::write`. -/
def DNSSOARecord.write (r : DNSSOARecord) (b : Buffer) : Except Err Unit × Buffer :=
  match writeNameTypeClassTtl b r.preamble with
  | (.error e, b1) => (.error e, b1)
  | (.ok _, b1) =>
    writeWithRdlength b1 fun b2 =>
      match b2.writeQname r.mname with
      | (.error e, b3) => (.error e, b3)
      | (.ok _, b3) =>
        match b3.writeQname r.rname with
        | (.error e, b4) => (.error e, b4)
        | (.ok _, b4) =>
          match b4.writeU32 r.serial with
          | (.error e, b5) => (.error e, b5)
          | (.ok _, b5) =>
            match b5.writeU32 r.refresh with
            | (.error e, b6) => (.error e, b6)
            | (.ok _, b6) =>
              match b6.writeU32 r.retry with
              | (.error e, b7) => (.error e, b7)
              | (.ok _, b7) =>
                match b7.writeU32 r.expire with
                | (.error e, b8) => (.error e, b8)
                | (.ok _, b8) => b8.writeU32 r.minimum

/-- `DNSSRVRecord::write`. -/
def DNSSRVRecord.write (r : DNSSRVRecord) (b : Buffer) : Except Err Unit × Buffer :=
  match writeNameTypeClassTtl b r.preamble with
  | (.error e, b1) => (.error e, b1)
  | (.ok _, b1) =>
    writeWithRdlength b1 fun b2 =>
      match b2.writeU16 r.priority with
      | (.error e, b3) => (.error e, b3)
      | (.ok _, b3) =>
        match b3.writeU16 r.weight with
        | (.error e, b4) => (.error e, b4)
        | (.ok _, b4) =>
          match b4.writeU16 r.port with
          | (.error e, b5) => (.error e, b5)
          | (.ok _, b5) => b5.writeQname r.target

/-- `DNSTXTRecord::write`: the fixed preamble prefix, then the text length
as rdlength (no patching) and the text octets. -/
def DNSTXTRecord.write (r : DNSTXTRecord) (b : Buffer) : Except Err Unit × Buffer :=
  match writeNameTypeClassTtl b r.preamble with
  | (.error e, b1) => (.error e, b1)
  | (.ok _, b1) =>
    match b1.writeU16 r.text.length with
    | (.error e, b2) => (.error e, b2)
    | (.ok _, b2) => writeBytes b2 r.text

/-- `DNSAAAARecord::write`: preamble (with rdlength 16), then the 128-bit
address. -/
def DNSAAAARecord.write (r : DNSAAAARecord) (b : Buffer) : Except Err Unit × Buffer :=
  match DNSRecordPreamble.write
      ⟨r.preamble.name, r.preamble.rtype, r.preamble.class', r.preamble.ttl, 16⟩ b with
  | (.error e, b1) => (.error e, b1)
  | (.ok _, b1) =>
    b1.writeU128 (((((((r.address.s0 * 65536 + r.address.s1) * 65536 + r.address.s2)
      * 65536 + r.address.s3) * 65536 + r.address.s4) * 65536 + r.address.s5)
      * 65536 + r.address.s6) * 65536 + r.address.s7)

/-- `DNSCAARecord::write`: preamble (rdlength `2 + |tag| + |value|`),
flags, tag length (`as u8`), tag octets, value octets. -/
def DNSCAARecord.write (r : DNSCAARecord) (b : Buffer) : Except Err Unit × Buffer :=
  let rdlength := 1 + 1 + r.tag.length + r.value.length
  match DNSRecordPreamble.write
      ⟨r.preamble.name, r.preamble.rtype, r.preamble.class', r.preamble.ttl, rdlength⟩ b with
  | (.error e, b1) => (.error e, b1)
  | (.ok _, b1) =>
    match b1.writeU8 r.flags with
    | (.error e, b2) => (.error e, b2)
    | (.ok _, b2) =>
      match b2.writeU8 (r.tag.length % 256) with
      | (.error e, b3) => (.error e, b3)
      | (.ok _, b3) =>
        match writeBytes b3 r.tag with
        | (.error e, b4) => (.error e, b4)
        | (.ok _, b4) => writeBytes b4 r.value

/-- `DNSUNKNOWNRecord::write`: the stub that always fails (it is in fact
dead code — `DNSRecord::write`'s catch-all rejects UNKNOWN before it). -/
def DNSUNKNOWNRecord.write (_r : DNSUNKNOWNRecord) (b : Buffer) :
    Except Err Unit × Buffer :=
  (.error .unknownWriteUnsupported, b)

/-- `DNSRecord::write`: dispatch on the variant.  The match lists the ten
supported variants; `UNKNOWN` falls to the catch-all
`Err("Unsupported record type")`. -/
def DNSRecord.write (r : DNSRecord) (b : Buffer) : Except Err Unit × Buffer :=
  match r with
  | .A rec => DNSARecord.write rec b
  | .CNAME rec => DNSCNAMERecord.write rec b
  | .NS rec => DNSNSRecord.write rec b
  | .MX rec => DNSMXRecord.write rec b
  | .TXT rec => DNSTXTRecord.write rec b
  | .AAAA rec => DNSAAAARecord.write rec b
  | .SOA rec => DNSSOARecord.write rec b
  | .CAA rec => DNSCAARecord.write rec b
  | .SRV rec => DNSSRVRecord.write rec b
  | .PTR rec => DNSPTRRecord.write rec b
  | .UNKNOWN _ => (.error .unsupportedRecordType, b)

/-- `OpCode` (src/message/header.rs). -/
inductive OpCode where
  | Query | IQuery | Status | Notify | Update
deriving DecidableEq, Repr

/-- `OpCode::to_u8`. -/
def OpCode.toU8 : OpCode → Nat
  | .Query => 0
  | .IQuery => 1
  | .Status => 2
  | .Notify => 4
  | .Update => 5

/-- `QRFlag`; `as u8` is the declaration-order discriminant. -/
inductive QRFlag where
  | Query | Response
deriving DecidableEq, Repr

/-- `QRFlag as u8`. -/
def QRFlag.toU8 : QRFlag → Nat
  | .Query => 0
  | .Response => 1

/-- `AAFlag`. -/
inductive AAFlag where
  | NonAuthoritative | Authoritative
deriving DecidableEq, Repr

/-- `AAFlag as u8`. -/
def AAFlag.toU8 : AAFlag → Nat
  | .NonAuthoritative => 0
  | .Authoritative => 1

/-- `TCFlag`. -/
inductive TCFlag where
  | NonTruncated | Truncated
deriving DecidableEq, Repr

/-- `TCFlag as u8`. -/
def TCFlag.toU8 : TCFlag → Nat
  | .NonTruncated => 0
  | .Truncated => 1

/-- `RDFlag`. -/
inductive RDFlag where
  | NonDesired | Desired
deriving DecidableEq, Repr

/-- `RDFlag as u8`. -/
def RDFlag.toU8 : RDFlag → Nat
  | .NonDesired => 0
  | .Desired => 1

/-- `RAFlag`. -/
inductive RAFlag where
  | NonAvailable | Available
deriving DecidableEq, Repr

/-- `RAFlag as u8`. -/
def RAFlag.toU8 : RAFlag → Nat
  | .NonAvailable => 0
  | .Available => 1

/-- `ZFlag` (only `Unused = 0`). -/
inductive ZFlag where
  | Unused
deriving DecidableEq, Repr

/-- `ZFlag as u8`. -/
def ZFlag.toU8 : ZFlag → Nat
  | .Unused => 0

/-- `ADFlag`. -/
inductive ADFlag where
  | NonAuthenticated | Authenticated
deriving DecidableEq, Repr

/-- `ADFlag as u8`. -/
def ADFlag.toU8 : ADFlag → Nat
  | .NonAuthenticated => 0
  | .Authenticated => 1

/-- `CDFlag` (declaration order: `Enabled = 0`, `Disabled = 1`). -/
inductive CDFlag where
  | Enabled | Disabled
deriving DecidableEq, Repr

/-- `CDFlag as u8`. -/
def CDFlag.toU8 : CDFlag → Nat
  | .Enabled => 0
  | .Disabled => 1

/-- `RCode` (src/message/header.rs). -/
inductive RCode where
  | NoError | FormErr | ServFail | NXDomain | NotImp | Refused
  | YXDomain | YXRRSet | NXRRSet | NotAuth | NotZone
deriving DecidableEq, Repr

/-- `RCode as u8` (declaration-order discriminant). -/
def RCode.toU8 : RCode → Nat
  | .NoError => 0
  | .FormErr => 1
  | .ServFail => 2
  | .NXDomain => 3
  | .NotImp => 4
  | .Refused => 5
  | .YXDomain => 6
  | .YXRRSet => 7
  | .NXRRSet => 8
  | .NotAuth => 9
  | .NotZone => 10

/-- `DNSHeaderSection`. -/
structure DNSHeaderSection where
  id : Nat
  qr : QRFlag
  opcode : OpCode
  aa : AAFlag
  tc : TCFlag
  rd : RDFlag
  ra : RAFlag
  z : ZFlag
  ad : ADFlag
  cd : CDFlag
  rcode : RCode
  qdcount : Nat
  ancount : Nat
  nscount : Nat
  arcount : Nat
deriving DecidableEq, Repr

/-- `DNSHeaderSection::new()`. -/
def DNSHeaderSection.new : DNSHeaderSection :=
  ⟨0, .Query, .Query, .NonAuthoritative, .NonTruncated, .NonDesired,
   .NonAvailable, .Unused, .NonAuthenticated, .Disabled, .NoError, 0, 0, 0, 0⟩

/-- `DNSHeaderSection::write`: id, the two composed flag octets, the four
counts.  The two flag-octet writes swallow their errors (the source's
`Err(e) => {eprintln!(..)}` arms do not return), so their failures do not
abort the write; the buffer keeps whatever state the attempt left. -/
def DNSHeaderSection.write (h : DNSHeaderSection) (b : Buffer) :
    Except Err Unit × Buffer :=
  match b.writeU16 h.id with
  | (.error e, b1) => (.error e, b1)
  | (.ok _, b1) =>
    let b2 := (b1.writeU8 (h.rd.toU8 ||| (h.tc.toU8 <<< 1) ||| (h.aa.toU8 <<< 2)
      ||| (h.opcode.toU8 <<< 3) ||| (h.qr.toU8 <<< 7))).2
    let b3 := (b2.writeU8 (h.rcode.toU8 ||| (h.cd.toU8 <<< 4) ||| (h.ad.toU8 <<< 5)
      ||| (h.z.toU8 <<< 6) ||| (h.ra.toU8 <<< 7))).2
    match b3.writeU16 h.qdcount with
    | (.error e, b4) => (.error e, b4)
    | (.ok _, b4) =>
      match b4.writeU16 h.ancount with
      | (.error e, b5) => (.error e, b5)
      | (.ok _, b5) =>
        match b5.writeU16 h.nscount with
        | (.error e, b6) => (.error e, b6)
        | (.ok _, b6) => b6.writeU16 h.arcount

/-- `DNSPacket` (the `DNSQuestionSection`/`DNSAnswerSection`/… wrappers,
which are bare `Vec` holders, are flattened to the lists they hold). -/
structure DNSPacket where
  header : DNSHeaderSection
  question : List DNSQuestion
  answer : List DNSRecord
  authority : List DNSRecord
  additional : List DNSRecord
deriving DecidableEq, Repr

/-- `DNSPacket::new()`. -/
def DNSPacket.new : DNSPacket := ⟨DNSHeaderSection.new, [], [], [], []⟩

/-- The `for question in &self.question.questions { question.write(buffer)? }`
loop of `DNSPacket::write`. -/
def writeQuestions (b : Buffer) : List DNSQuestion → Except Err Unit × Buffer
  | [] => (.ok (), b)
  | q :: rest =>
    match q.write b with
    | (.error e, b1) => (.error e, b1)
    | (.ok _, b1) => writeQuestions b1 rest

/-- The record-section loops of `DNSPacket::write`. -/
def writeRecords (b : Buffer) : List DNSRecord → Except Err Unit × Buffer
  | [] => (.ok (), b)
  | r :: rest =>
    match r.write b with
    | (.error e, b1) => (.error e, b1)
    | (.ok _, b1) => writeRecords b1 rest

/-- The header-count synchronization opening `DNSPacket::write`: the four
counts are set from the section lengths (`as u16`). -/
def DNSPacket.syncedHeader (p : DNSPacket) : DNSHeaderSection :=
  { p.header with
    qdcount := p.question.length % 65536,
    ancount := p.answer.length % 65536,
    nscount := p.authority.length % 65536,
    arcount := p.additional.length % 65536 }

/-- `DNSPacket::write`: set the four header counts from the section lengths
(`as u16`), then header, questions, answers, authorities, additionals. -/
def DNSPacket.write (p : DNSPacket) (b : Buffer) : Except Err Unit × Buffer :=
  match p.syncedHeader.write b with
  | (.error e, b1) => (.error e, b1)
  | (.ok _, b1) =>
    match writeQuestions b1 p.question with
    | (.error e, b2) => (.error e, b2)
    | (.ok _, b2) =>
      match writeRecords b2 p.answer with
      | (.error e, b3) => (.error e, b3)
      | (.ok _, b3) =>
        match writeRecords b3 p.authority with
        | (.error e, b4) => (.error e, b4)
        | (.ok _, b4) => writeRecords b4 p.additional

/-- `DNSPacket::get_random_a`: first A record of the answer section. -/
def DNSPacket.getRandomA (p : DNSPacket) : Option Ipv4 :=
  (p.answer.filterMap fun r =>
    match r with
    | .A a => some a.rdata
    | _ => none).head?

/-- `DNSPacket::get_ns`: the `(owner, target)` pairs of authority-section
NS records, kept when `qname.ends_with(owner)` — a plain byte-string
suffix test on the two strings. -/
def DNSPacket.getNs (p : DNSPacket) (qname : Name) : List (Name × Name) :=
  (p.authority.filterMap fun r =>
    match r with
    | .NS ns => some (ns.preamble.name, ns.rdata)
    | _ => none).filter fun pr => pr.1.isSuffixOf qname

/-- `DNSPacket::get_resolved_ns`: first additional-section A record whose
owner equals some `get_ns` target. -/
def DNSPacket.getResolvedNs (p : DNSPacket) (qname : Name) : Option Ipv4 :=
  ((p.getNs qname).flatMap fun pr =>
    p.additional.filterMap fun r =>
      match r with
      | .A a => if a.preamble.name = pr.2 then some a.rdata else none
      | _ => none).head?

/-- `(Ipv4Addr, u16)` server addresses. -/
abbrev Server := Ipv4 × Nat

/-- The hard-coded bootstrap server `("1.1.1.1", 53)`. -/
def bootstrapServer : Server := (⟨1, 1, 1, 1⟩, 53)

/-- The network, abstracting `DNSResolver::lookup` (build query, send,
receive, parse): what each upstream query returns, `Except` carrying the
transport/parse failures. -/
def Env := Name → QRType → Server → Except Err DNSPacket

/-- The `for (_ns_domain, ns_host) in response.get_ns("")` loop of
`DNSResolver::find_next_server`; `subLookup` is the
`self.recursive_lookup(ns_host, QRType::A)` sub-resolution. -/
def findNextGo (resp : DNSPacket) (subLookup : Name → Except Err DNSPacket) :
    List (Name × Name) → Option Server
  | [] => none
  | (_, nsHost) :: rest =>
    match resp.getResolvedNs nsHost with
    | some ip => some (ip, 53)
    | none =>
      match subLookup nsHost with
      | .ok pkt =>
        match pkt.getRandomA with
        | some ip => some (ip, 53)
        | none => findNextGo resp subLookup rest
      | .error _ => findNextGo resp subLookup rest

/-- `DNSResolver::find_next_server` with the sub-resolution abstracted:
note the iterated pairs come from `get_ns("")` — the empty string, not
the original query name. -/
def findNextServerF (resp : DNSPacket) (subLookup : Name → Except Err DNSPacket) :
    Option Server :=
  findNextGo resp subLookup (resp.getNs [])

/-- The `loop` of `DNSResolver::recursive_lookup`, with the current
`server` explicit and a fuel argument bounding the number of upstream
round-trips the run is allowed (the source loop itself is unbounded). -/
def recursiveLookupLoop (env : Env) : Nat → Name → QRType → Server →
    Except Err DNSPacket
  | 0, _, _, _ => .error .fuelExhausted
  | fuel + 1, qname, qtype, server =>
    match env qname qtype server with
    | .error e => .error e
    | .ok response =>
      if response.answer ≠ [] ∧ response.header.rcode = RCode.NoError then
        .ok response
      else if response.header.rcode = RCode.NXDomain then
        .ok response
      else
        match findNextServerF response
            (fun host => recursiveLookupLoop env fuel host .A bootstrapServer) with
        | some newServer => recursiveLookupLoop env fuel qname qtype newServer
        | none => .ok response

/-- `DNSResolver::recursive_lookup`: start at the bootstrap server. -/
def recursiveLookup (env : Env) (fuel : Nat) (qname : Name) (qtype : QRType) :
    Except Err DNSPacket :=
  recursiveLookupLoop env fuel qname qtype bootstrapServer

/-- `DNSResolver::find_next_server`, its sub-resolution tied back to
`recursive_lookup` at the given fuel. -/
def findNextServer (env : Env) (fuel : Nat) (resp : DNSPacket) : Option Server :=
  findNextServerF resp fun host => recursiveLookupLoop env fuel host .A bootstrapServer

/-! ### Auxiliary definitions for stating the claims -/

/-- Modelled from the spec's words, for comparison with the code's
`get_ns` filter: "structural suffix match on dotted labels" — the owner's
label list is a suffix of the query name's label list. -/
def labelWiseSuffix (owner qname : Name) : Bool :=
  (splitDot owner).isSuffixOf (splitDot qname)

/-- Letters, digits, hyphen (the name alphabet the round-trip claim
quantifies over). -/
def isLDHByte (b : Nat) : Prop :=
  (48 ≤ b ∧ b ≤ 57) ∨ (65 ≤ b ∧ b ≤ 90) ∨ (97 ≤ b ∧ b ≤ 122) ∨ b = 45

instance (b : Nat) : Decidable (isLDHByte b) := by
  unfold isLDHByte; infer_instance

/-- The wire form of a label sequence: length-prefixed labels followed by
the zero terminator — what `write_qname` emits for a name with these
(nonempty) labels. -/
def wireOf (labels : List (List Nat)) : List Nat :=
  labels.foldr (fun l acc => l.length :: (l ++ acc)) [0]

/-- The wire form without the terminator (what the label loop alone emits). -/
def labelsWire (labels : List (List Nat)) : List Nat :=
  labels.foldr (fun l acc => l.length :: (l ++ acc)) []

/-- The string `read_qname` accumulates for a label sequence: the labels
lowercased, the first preceded by `delim`, the rest by dots. -/
def dotJoin (delim : List Nat) : List (List Nat) → List Nat
  | [] => []
  | l :: ls => delim ++ l ++ dotJoin [46] ls

/-- Modelled from the spec's name-decoding walk (§4.2), over buffer
content `f`: starting at position `p`, the decoder can perform at least
`k` compression-pointer hops.  Each step carries exactly the in-bounds
conditions under which the source loop takes that step: a label step
needs its length octet readable (`p < 512`), a nonzero non-pointer
length, and the label octets in range (`p + 1 + len < 512`); a hop needs
the two pointer octets readable and continues at the 14-bit offset.
"Decoding would require more than 5 jumps" is `Hops f p 6`. -/
inductive Hops (f : Nat → Nat) : Nat → Nat → Prop where
  | here (p : Nat) : Hops f p 0
  | label (p k : Nat) (hp : p < 512) (hnptr : ¬(f p &&& 0xC0 = 0xC0))
      (hnz : f p ≠ 0) (hrange : p + 1 + f p < 512)
      (h : Hops f (p + 1 + f p) k) : Hops f p k
  | jump (p k : Nat) (hp : p < 512) (hptr : f p &&& 0xC0 = 0xC0)
      (hp1 : p + 1 < 512)
      (h : Hops f (((f p ^^^ 0xC0) <<< 8) ||| f (p + 1)) k) : Hops f p (k + 1)

/-- Does the record sit in the UNKNOWN variant? -/
def DNSRecord.isUnknown : DNSRecord → Bool
  | .UNKNOWN _ => true
  | _ => false

/-- Some section of the packet holds an UNKNOWN-variant record. -/
def hasUnknownRecord (p : DNSPacket) : Bool :=
  p.answer.any DNSRecord.isUnknown || p.authority.any DNSRecord.isUnknown ||
    p.additional.any DNSRecord.isUnknown

/-! ### Concrete inputs used by the counterexample, failing-input and
witness theorems -/

/-- A wire record: root owner, type A, class CH (3), TTL 3600, rdlength 4 —
the preamble octets a conforming encoder emits. -/
def preambleClassBuf : Buffer := Buffer.ofList [0, 0, 1, 0, 3, 0, 0, 14, 16, 0, 4]

/-- A wire record of type code 3 (a code outside the supported set). -/
def unsupportedTypeBuf : Buffer :=
  Buffer.ofList [0, 0, 3, 0, 1, 0, 0, 0, 60, 0, 4, 9, 9, 9, 9]

/-- A wire record of type code 0 (the one code the UNKNOWN reader accepts):
root owner, type 0, then the 6 octets the (class-skipping) preamble reader
consumes as TTL and rdlength, giving rdlength 60. -/
def unknownZeroBuf : Buffer :=
  Buffer.ofList [0, 0, 0, 0, 1, 0, 0, 0, 60, 0, 4, 9, 9, 9, 9]

/-- The buffer state after `preambleRead unknownZeroBuf` (cursor at 9). -/
def unknownZeroBufAfter : Buffer := { unknownZeroBuf with pos := 9 }

/-- A name consisting of the label "a" followed by a self-pointing
compression pointer (`0xC0 0x02` at offset 2 points to offset 2). -/
def labelThenSelfPtrBuf : Buffer := Buffer.ofList [1, 97, 0xC0, 2]

/-- A name that is a self-pointing compression pointer at offset 0. -/
def selfPtrBuf : Buffer := Buffer.ofList [0xC0, 0]

/-- An NS record value (owner, target) as the parser would produce it. -/
def nsRecOf (owner target : Name) : DNSRecord :=
  .NS ⟨⟨owner, .NS, .IN, 3600, 0⟩, target⟩

/-- An A record value (owner, address). -/
def aRecOf (owner : Name) (ip : Ipv4) : DNSRecord :=
  .A ⟨⟨owner, .A, .IN, 3600, 4⟩, ip⟩

/-- The packet of the C3 example: one authority NS record owned by
"example.com". -/
def badSuffixPacket : DNSPacket :=
  ⟨DNSHeaderSection.new, [], [],
    [nsRecOf (asBytes "example.com") (asBytes "ns1.example.com")], []⟩

/-- The glue address of the C4 referral example. -/
def glueIp : Ipv4 := ⟨199, 43, 135, 53⟩

/-- The C4 referral: no answers, rcode NoError, authority
"example.org NS a.iana-servers.net", additional
"a.iana-servers.net A 199.43.135.53". -/
def referralPacket : DNSPacket :=
  ⟨DNSHeaderSection.new, [], [],
    [nsRecOf (asBytes "example.org") (asBytes "a.iana-servers.net")],
    [aRecOf (asBytes "a.iana-servers.net") glueIp]⟩

/-- A referral that every upstream server keeps returning: empty answer,
rcode NoError, an authority NS record owned by the empty name with a glued
target — `find_next_server` always extracts the glue address from it, so
the resolver's loop never stops referring. -/
def loopReferral : DNSPacket :=
  ⟨DNSHeaderSection.new, [], [],
    [nsRecOf [] (asBytes "ns.evil")],
    [aRecOf (asBytes "ns.evil") ⟨10, 0, 0, 1⟩]⟩

/-- The adversarial upstream of the C2 failing input: every query, to any
server, is answered with `loopReferral`. -/
def loopEnv : Env := fun _ _ _ => .ok loopReferral

/-- A question with a non-IN class (CH), for the C9 counterexample. -/
def questionCH : DNSQuestion := ⟨asBytes "x", .A, .CH⟩

/-- Wire form of a question `x. A CH`: name, qtype 1, qclass 3. -/
def questionCHWire : Buffer := Buffer.ofList [1, 120, 0, 0, 1, 0, 3]

/-- The placeholder question `DNSPacket::from_buffer` starts from:
`DNSQuestion::new("", UNKNOWN(0), ANY)`. -/
def placeholderQuestion : DNSQuestion := ⟨[], .UNKNOWN 0, .ANY⟩

/-- The same question as `questionCH` but with class IN. -/
def questionIN : DNSQuestion := ⟨asBytes "x", .A, .IN⟩

/-- What parsing `questionCHWire` from the placeholder produces: the CH on
the wire is discarded, the placeholder's ANY class survives. -/
def parsedCHQuestion : DNSQuestion := ⟨asBytes "x", .A, .ANY⟩

/-- A packet holding one UNKNOWN record in its answer section. -/
def unknownPacket : DNSPacket :=
  ⟨DNSHeaderSection.new, [],
    [.UNKNOWN ⟨⟨[], .UNKNOWN 0, .IN, 0, 0⟩, some []⟩], [], []⟩

/-- A mixed-case round-trip input for the C8 witness. -/
def mixedCaseName : Name := asBytes "ExAmple.COM"

/-! ### Theorems settling the claims -/

/-- C1: the record-preamble reader does not read the 16-bit class from the
buffer.  On a wire record whose class field is CH (3), `DNSRecordPreamble::read`
returns class IN, reads the TTL starting at the class octets (yielding
196608 instead of 3600) and the rdlength from inside the TTL field
(3600 instead of 4), and leaves the cursor 8 — not 10 — octets past the
name (position 9, not 11). -/
theorem claim_C1_preamble_class_not_read :
    (preambleRead preambleClassBuf).1 = .ok ([], .A, .IN, 196608, 3600) ∧
    (preambleRead preambleClassBuf).2.pos = 9 ∧ (9 : Nat) ≠ 1 + 10 ∧
    QRClass.fromU16 3 = some .CH := by
  refine ⟨rfl, rfl, by decide, rfl⟩

/-- C5: `step` and `seek` perform no bound check: stepping a fresh buffer
by 600 (and seeking to 777) succeeds and leaves the cursor beyond 512,
violating the claimed `0 ≤ pos ≤ 512` invariant. -/
theorem claim_C5_step_seek_unchecked :
    (Buffer.new.step 600).1 = .ok () ∧ (Buffer.new.step 600).2.pos = 600 ∧
    (Buffer.new.seek 777).1 = .ok () ∧ (Buffer.new.seek 777).2.pos = 777 ∧
    ¬(600 ≤ 512) := by
  refine ⟨rfl, rfl, rfl, rfl, by decide⟩

/-- C6 counterexample: a record with the unsupported 16-bit type code 3 is
not parsed into an UNKNOWN record — `DNSRecord::read` rejects it with the
"Unsupported record type" error. -/
theorem claim_C6_counterexample :
    (DNSRecord.read unsupportedTypeBuf).1 = .error .unsupportedRecordType := rfl

/-- C3 counterexample: `get_ns` matches by plain string suffix, so the NS
record owned by "example.com" IS yielded for the query name
"badexample.com", although "example.com" is not a label-wise suffix of it. -/
theorem claim_C3_counterexample :
    badSuffixPacket.getNs (asBytes "badexample.com") =
      [(asBytes "example.com", asBytes "ns1.example.com")] ∧
    labelWiseSuffix (asBytes "example.com") (asBytes "badexample.com") = false := by
  refine ⟨rfl, rfl⟩

/-- C9 counterexample: a question whose qclass is CH does not round-trip.
Writing it emits the class octets 0,1 (IN) — positions 5 and 6, right
after the 3-octet name and 2-octet qtype — and parsing a wire question
whose class field is CH leaves the question's qclass at its prior value
(ANY, for the placeholder `from_buffer` starts from), not CH. -/
theorem claim_C9_counterexample :
    (questionCH.write Buffer.new).2.buf 5 = 0 ∧
    (questionCH.write Buffer.new).2.buf 6 = 1 ∧
    QRClass.toU16 .CH = 3 ∧
    (placeholderQuestion.read questionCHWire).1 =
      .ok ⟨asBytes "x", .A, .ANY⟩ := by
  refine ⟨rfl, rfl, rfl, rfl⟩

/-- C7 counterexample: on a name made of the label "a" followed by a
self-pointing compression pointer, decoding fails with the jump-limit
error, but the buffer cursor ends at 4 = (first pointer's position) + 2,
which exceeds the name's original position (0) plus 2. -/
theorem claim_C7_counterexample :
    (labelThenSelfPtrBuf.readQname []).1 = .error .exceededJumpLimit ∧
    (labelThenSelfPtrBuf.readQname []).2.pos = 4 ∧
    labelThenSelfPtrBuf.pos = 0 ∧ ¬((4 : Nat) ≤ 0 + 2) := by
  refine ⟨rfl, rfl, rfl, by decide⟩

/-- C6 amended: after a successful preamble read whose type tag is
`UNKNOWN(c)`, the record reader succeeds — skipping `rdlength` octets and
retaining the preamble (with type `UNKNOWN(0)` and rdlength 0) — exactly
when `c = 0`; for every other unsupported code it fails with the
"Unsupported record type" error. -/
theorem claim_C6_amended (st st' : Buffer) (domain : Name) (c : Nat)
    (cls : QRClass) (ttl len : Nat)
    (h : preambleRead st = (.ok (domain, .UNKNOWN c, cls, ttl, len), st')) :
    DNSRecord.read st =
      if c = 0 then
        (.ok (.UNKNOWN ⟨⟨domain, .UNKNOWN 0, cls, ttl, 0⟩, some []⟩),
          { st' with pos := st'.pos + len })
      else (.error .unsupportedRecordType, st') := by
  unfold DNSRecord.read
  rw [h]
  cases c with
  | zero => simp [DNSUNKNOWNRecord.read, Buffer.step]
  | succ n => simp

/-- C6 witness: the amended theorem at a concrete type-0 wire record. -/
theorem claim_C6_witness :
    preambleRead unknownZeroBuf =
      (.ok ([], .UNKNOWN 0, .IN, 65536, 60), unknownZeroBufAfter) ∧
    DNSRecord.read unknownZeroBuf =
      (.ok (.UNKNOWN ⟨⟨[], .UNKNOWN 0, .IN, 65536, 0⟩, some []⟩),
        { unknownZeroBufAfter with pos := unknownZeroBufAfter.pos + 60 }) := by
  refine ⟨rfl, ?_⟩
  have h := claim_C6_amended unknownZeroBuf unknownZeroBufAfter [] 0 .IN 65536 60 rfl
  simpa using h

/-- C3 amended: `(owner, target)` is yielded by `get_ns(qname)` exactly
when some authority-section NS record has that owner and target and the
owner's byte string is a suffix of `qname`'s byte string (a plain,
case-sensitive string-suffix test — not a label-wise one). -/
theorem claim_C3_amended (p : DNSPacket) (q owner host : Name) :
    (owner, host) ∈ p.getNs q ↔
      ((∃ pre : DNSRecordPreamble, pre.name = owner ∧
          DNSRecord.NS ⟨pre, host⟩ ∈ p.authority) ∧ owner <:+ q) := by
  unfold DNSPacket.getNs
  rw [List.mem_filter]
  simp only [List.mem_filterMap]
  constructor
  · rintro ⟨⟨r, hr, hm⟩, hsuf⟩
    cases r <;> simp at hm
    case NS ns =>
      obtain ⟨h1, h2⟩ := hm
      refine ⟨⟨ns.preamble, h1, ?_⟩, ?_⟩
      · have : DNSRecord.NS ⟨ns.preamble, host⟩ = DNSRecord.NS ns := by
          rw [← h2]
        rwa [this]
      · simpa [List.isSuffixOf_iff_suffix] using hsuf
  · rintro ⟨⟨pre, hname, hmem⟩, hsuf⟩
    refine ⟨⟨.NS ⟨pre, host⟩, hmem, by simp [hname]⟩, ?_⟩
    simpa [List.isSuffixOf_iff_suffix] using hsuf

/-- C9 amended: `DNSQuestion::write` is independent of the question's
qclass (it emits the constant class 1), and `DNSQuestion::read` leaves
the question's qclass unchanged (the parsed 16-bit class is read but
discarded), so a non-IN class neither reaches the wire nor survives
parsing. -/
theorem claim_C9_amended (q1 q2 q r : DNSQuestion) (st st2 : Buffer)
    (hn : q1.qname = q2.qname) (ht : q1.qtype = q2.qtype)
    (hr : (q.read st2).1 = .ok r) :
    q1.write st = q2.write st ∧ r.qclass = q.qclass := by
  constructor
  · unfold DNSQuestion.write
    rw [hn, ht]
  · unfold DNSQuestion.read at hr
    rcases h1 : st2.readQname q.qname with ⟨res1, b1⟩
    rw [h1] at hr
    cases res1 with
    | error e => simp at hr
    | ok nm =>
      dsimp only at hr
      rcases h2 : b1.readU16 with ⟨res2, b2⟩
      rw [h2] at hr
      cases res2 with
      | error e => simp at hr
      | ok t =>
        dsimp only at hr
        rcases h3 : b2.readU16 with ⟨res3, b3⟩
        rw [h3] at hr
        cases res3 with
        | error e => simp at hr
        | ok cl =>
          simp at hr
          rw [← hr]

/-- C9 witness: the amended theorem at the concrete CH question and the
concrete CH wire bytes. -/
theorem claim_C9_witness :
    questionIN.qname = questionCH.qname ∧ questionIN.qtype = questionCH.qtype ∧
    (placeholderQuestion.read questionCHWire).1 = .ok parsedCHQuestion ∧
    (questionIN.write Buffer.new = questionCH.write Buffer.new ∧
      parsedCHQuestion.qclass = placeholderQuestion.qclass) :=
  ⟨rfl, rfl, rfl,
    claim_C9_amended questionIN questionCH placeholderQuestion parsedCHQuestion
      Buffer.new questionCHWire rfl rfl rfl⟩

/-- C4: on the referral of the claim's example (authority
"example.org NS a.iana-servers.net", additional
"a.iana-servers.net A 199.43.135.53", empty answer), `find_next_server`
returns `None` for every sub-resolver and fuel — it matches NS owners
against the empty string (`get_ns("")`), which matches nothing here —
although the glue is present and resolvable against the queried name. -/
theorem claim_C4_referral_not_followed :
    (∀ (env : Env) (fuel : Nat), findNextServer env fuel referralPacket = none) ∧
    referralPacket.getNs [] = [] ∧
    referralPacket.getResolvedNs (asBytes "www.example.org") = some glueIp := by
  refine ⟨fun env fuel => ?_, rfl, rfl⟩
  unfold findNextServer findNextServerF
  rw [show referralPacket.getNs [] = [] from rfl]
  rfl

/-- One referral round of the loop under `loopEnv`: the response has no
answers and rcode NoError, and `find_next_server` extracts the (self-)
glue address, so the loop recurses with one unit of fuel spent. -/
theorem loopEnv_step (k : Nat) (qname : Name) (qtype : QRType) (server : Server) :
    recursiveLookupLoop loopEnv (k + 1) qname qtype server =
      recursiveLookupLoop loopEnv k qname qtype (⟨10, 0, 0, 1⟩, 53) := rfl

/-- Under `loopEnv` the lookup loop consumes every round-trip budget
without ever returning. -/
theorem loopEnv_exhausts (n : Nat) (qname : Name) (qtype : QRType) :
    ∀ server : Server,
      recursiveLookupLoop loopEnv n qname qtype server = .error .fuelExhausted := by
  induction n with
  | zero => intro server; rfl
  | succ k ih =>
    intro server
    rw [loopEnv_step]
    exact ih _

/-- C2: `recursive_lookup` has no iteration cap.  Under the crafted
referral loop `loopEnv`, for every round-trip budget `fuel` — 16
included — the lookup spends the whole budget and returns nothing
(in particular it never produces a ServFail packet): the loop keeps
re-sending to the glue address forever. -/
theorem claim_C2_no_iteration_cap (fuel : Nat) (qname : Name) (qtype : QRType) :
    recursiveLookup loopEnv fuel qname qtype = .error .fuelExhausted :=
  loopEnv_exhausts fuel qname qtype bootstrapServer

/-- A successful record-section write implies no record of the section is
the UNKNOWN variant (whose write dispatch is the failing catch-all). -/
theorem writeRecords_ok_no_unknown (recs : List DNSRecord) :
    ∀ b : Buffer, (writeRecords b recs).1 = .ok () →
      ∀ r ∈ recs, r.isUnknown = false := by
  induction recs with
  | nil => intro b _ r hr; simp at hr
  | cons r rest ih =>
    intro b h s hs
    unfold writeRecords at h
    rcases hw : r.write b with ⟨res, b1⟩
    rw [hw] at h
    cases res with
    | error e => simp at h
    | ok _ =>
      dsimp only at h
      rcases List.mem_cons.mp hs with h1 | h1
      · subst h1
        cases s <;> first
          | rfl
          | (exfalso; simp [DNSRecord.write] at hw)
      · exact ih b1 h s h1

/-- C10: a packet holding an UNKNOWN-variant record in any section can
never be serialized — `DNSPacket::write` always returns an error, because
`DNSRecord::write` has no emitter for the UNKNOWN variant. -/
theorem claim_C10_unknown_blocks_serialization (p : DNSPacket) (b : Buffer)
    (h : hasUnknownRecord p = true) : ∃ e, (p.write b).1 = .error e := by
  cases hw : (p.write b).1 with
  | error e => exact ⟨e, rfl⟩
  | ok u =>
    exfalso
    unfold DNSPacket.write at hw
    rcases h1 : p.syncedHeader.write b with ⟨res1, b1⟩
    rw [h1] at hw
    cases res1 with
    | error e => simp at hw
    | ok _ =>
      dsimp only at hw
      rcases h2 : writeQuestions b1 p.question with ⟨res2, b2⟩
      rw [h2] at hw
      cases res2 with
      | error e => simp at hw
      | ok _ =>
        dsimp only at hw
        rcases h3 : writeRecords b2 p.answer with ⟨res3, b3⟩
        rw [h3] at hw
        cases res3 with
        | error e => simp at hw
        | ok _ =>
          dsimp only at hw
          rcases h4 : writeRecords b3 p.authority with ⟨res4, b4⟩
          rw [h4] at hw
          cases res4 with
          | error e => simp at hw
          | ok _ =>
            dsimp only at hw
            have hans := writeRecords_ok_no_unknown p.answer b2 (by rw [h3])
            have haut := writeRecords_ok_no_unknown p.authority b3 (by rw [h4])
            have hadd := writeRecords_ok_no_unknown p.additional b4 (by rw [hw])
            unfold hasUnknownRecord at h
            rcases Bool.or_eq_true_iff.mp h with h' | hA
            · rcases Bool.or_eq_true_iff.mp h' with hN | hU
              · obtain ⟨r, hr, hru⟩ := List.any_eq_true.mp hN
                rw [hans r hr] at hru; exact Bool.false_ne_true hru
              · obtain ⟨r, hr, hru⟩ := List.any_eq_true.mp hU
                rw [haut r hr] at hru; exact Bool.false_ne_true hru
            · obtain ⟨r, hr, hru⟩ := List.any_eq_true.mp hA
              rw [hadd r hr] at hru; exact Bool.false_ne_true hru

/-- C10 witness: the theorem at a concrete packet with an UNKNOWN answer. -/
theorem claim_C10_witness :
    hasUnknownRecord unknownPacket = true ∧
    ∃ e, (unknownPacket.write Buffer.new).1 = .error e :=
  ⟨rfl, claim_C10_unknown_blocks_serialization unknownPacket Buffer.new rfl⟩

/-- Once a jump has been taken, the `read_qname` loop never touches the
shared buffer again: both `seek`s are guarded by `!jumped`. -/
theorem readQnameLoop_jumped_state (fuel : Nat) :
    ∀ (b : Buffer) (p jumps : Nat) (delim acc : List Nat),
      (readQnameLoop b p true jumps delim acc fuel).2 = b := by
  induction fuel with
  | zero => intros; rfl
  | succ k ih =>
    intro b p jumps delim acc
    unfold readQnameLoop
    by_cases hj : jumps > maxJumps
    · rw [if_pos hj]
    · rw [if_neg hj]
      cases hg : b.getByte p with
      | error e => rfl
      | ok len =>
        dsimp only
        by_cases hptr : len &&& 0xC0 = 0xC0
        · rw [if_pos hptr]
          dsimp only [cond]
          cases hg1 : b.getByte (p + 1) with
          | error e => rfl
          | ok b2 => exact ih b _ _ _ _
        · rw [if_neg hptr]
          by_cases hz : len = 0
          · rw [if_pos hz]; rfl
          · rw [if_neg hz]
            cases hr : b.getByteRange (p + 1) len with
            | error e => rfl
            | ok label => exact ih b _ _ _ _

/-- When the jump-limit error comes out of an unjumped loop entry, the
buffer cursor ends exactly two past a compression-pointer octet at or
after the entry position — the first pointer the walk met; when the
entry octet itself is a pointer, two past exactly it. -/
theorem readQnameLoop_limit_state (fuel : Nat) :
    ∀ (b : Buffer) (p : Nat) (delim acc : List Nat),
    (readQnameLoop b p false 0 delim acc fuel).1 = .error .exceededJumpLimit →
    ∃ q, p ≤ q ∧ b.buf q &&& 0xC0 = 0xC0 ∧
      (readQnameLoop b p false 0 delim acc fuel).2 = { b with pos := q + 2 } ∧
      (b.buf p &&& 0xC0 = 0xC0 → q = p) := by
  induction fuel with
  | zero =>
    intro b p delim acc herr
    simp [readQnameLoop] at herr
  | succ k ih =>
    intro b p delim acc herr
    unfold readQnameLoop at herr ⊢
    rw [if_neg (by decide : ¬((0 : Nat) > maxJumps))] at herr ⊢
    by_cases hp : p ≥ 512
    · rw [show b.getByte p = .error .unexpectedEof from by
        simp [Buffer.getByte, hp]] at herr
      simp at herr
    · rw [show b.getByte p = .ok (b.buf p) from by
        simp [Buffer.getByte, hp]] at herr ⊢
      dsimp only at herr ⊢
      by_cases hptr : b.buf p &&& 0xC0 = 0xC0
      · rw [if_pos hptr] at herr ⊢
        dsimp only [cond] at herr ⊢
        refine ⟨p, le_refl p, hptr, ?_, fun _ => rfl⟩
        cases hg1 : Buffer.getByte { b with pos := p + 2 } (p + 1) with
        | error e => rfl
        | ok b2 => exact readQnameLoop_jumped_state k _ _ _ _ _
      · rw [if_neg hptr] at herr ⊢
        by_cases hz : b.buf p = 0
        · rw [if_pos hz] at herr
          simp at herr
        · rw [if_neg hz] at herr ⊢
          cases hr : b.getByteRange (p + 1) (b.buf p) with
          | error e =>
            exfalso
            rw [hr] at herr
            have he : e = Err.exceededJumpLimit := by simpa using herr
            subst he
            unfold Buffer.getByteRange at hr
            split at hr <;> simp at hr
          | ok label =>
            rw [hr] at herr
            dsimp only at herr ⊢
            obtain ⟨q, hq0, hq1, hq2, _⟩ := ih b (p + 1 + b.buf p) _ _ herr
            exact ⟨q, by omega, hq1, hq2, fun h => absurd h hptr⟩

/-- A decode walk that can still make `k` hops forces the loop (entered
with `j` hops already performed, `5 < j + k`, and fuel covering the walk)
into the jump-limit error. -/
theorem readQnameLoop_limit_of_hops {f : Nat → Nat} {p k : Nat}
    (hops : Hops f p k) :
    ∀ (b : Buffer), b.buf = f →
    ∀ (j : Nat) (jumped : Bool) (delim acc : List Nat) (fuel : Nat),
    5 < j + k → k * 513 + (512 - p) + 2 ≤ fuel →
    (readQnameLoop b p jumped j delim acc fuel).1 = .error .exceededJumpLimit := by
  have hmax : maxJumps = 5 := rfl
  induction hops with
  | here p =>
    intro b hbf j jumped delim acc fuel hj hfuel
    cases fuel with
    | zero => omega
    | succ m =>
      unfold readQnameLoop
      rw [if_pos (by omega : j > maxJumps)]
  | label p k hp hnptr hnz hrange h ih =>
    intro b hbf j jumped delim acc fuel hj hfuel
    cases fuel with
    | zero => omega
    | succ m =>
      unfold readQnameLoop
      by_cases hj5 : j > maxJumps
      · rw [if_pos hj5]
      · rw [if_neg hj5]
        have hg : b.getByte p = .ok (f p) := by
          unfold Buffer.getByte
          rw [if_neg (by omega), hbf]
        rw [hg]
        dsimp only
        rw [if_neg hnptr, if_neg hnz]
        have hgr : b.getByteRange (p + 1) (f p) =
            .ok ((List.range (f p)).map fun i => b.buf (p + 1 + i)) := by
          unfold Buffer.getByteRange
          rw [if_neg (by omega)]
        rw [hgr]
        dsimp only
        exact ih b hbf j jumped [46] _ m hj (by omega)
  | jump p k hp hptr hp1 h ih =>
    intro b hbf j jumped delim acc fuel hj hfuel
    cases fuel with
    | zero => omega
    | succ m =>
      unfold readQnameLoop
      by_cases hj5 : j > maxJumps
      · rw [if_pos hj5]
      · rw [if_neg hj5]
        have hg : b.getByte p = .ok (f p) := by
          unfold Buffer.getByte
          rw [if_neg (by omega), hbf]
        rw [hg]
        dsimp only
        rw [if_pos hptr]
        have hg1 : (bif jumped then b else { b with pos := p + 2 }).getByte (p + 1) =
            .ok (f (p + 1)) := by
          cases jumped <;>
            · unfold Buffer.getByte
              rw [if_neg (by omega)]
              simp [hbf]
        rw [hg1]
        dsimp only
        exact ih (bif jumped then b else { b with pos := p + 2 })
          (by cases jumped <;> simp [hbf]) (j + 1) true delim acc m
          (by omega) (by omega)

/-- C7 amended: (i) name decoding fails with the jump-limit error
whenever the decode walk from the cursor could perform more than 5
compression-pointer hops; (ii) whenever it fails with that error, the
buffer cursor ends exactly two past a compression-pointer octet at or
after the name's start — the first pointer the decoder met — which is
the original position plus 2 when the name begins with a pointer, but
can exceed the original position plus 2 when labels precede the first
pointer (as the counterexample shows). -/
theorem claim_C7_amended (st : Buffer) (acc : List Nat) :
    (Hops st.buf st.pos 6 → (st.readQname acc).1 = .error .exceededJumpLimit) ∧
    ((st.readQname acc).1 = .error .exceededJumpLimit →
      ∃ q, st.pos ≤ q ∧ st.buf q &&& 0xC0 = 0xC0 ∧
        (st.readQname acc).2 = { st with pos := q + 2 } ∧
        (st.buf st.pos &&& 0xC0 = 0xC0 → q = st.pos)) := by
  constructor
  · intro hops
    unfold Buffer.readQname
    exact readQnameLoop_limit_of_hops hops st rfl 0 false [] acc qnameFuel
      (by omega) (by have hq : qnameFuel = 4096 := rfl; omega)
  · intro herr
    unfold Buffer.readQname at herr ⊢
    exact readQnameLoop_limit_state qnameFuel st st.pos [] acc herr

/-- C7 witness: the amended theorem at the self-pointing pointer of the
spec's scenario — the 6-hop walk exists, decoding fails with the
jump-limit error, and the cursor ends at the original position plus 2. -/
theorem claim_C7_witness :
    Hops selfPtrBuf.buf selfPtrBuf.pos 6 ∧
    (selfPtrBuf.readQname []).1 = .error .exceededJumpLimit ∧
    (selfPtrBuf.readQname []).2.pos = selfPtrBuf.pos + 2 := by
  have hstep : ∀ n, Hops selfPtrBuf.buf 0 n → Hops selfPtrBuf.buf 0 (n + 1) :=
    fun n hn => .jump 0 n (by decide) (by decide) (by decide) hn
  have hops : Hops selfPtrBuf.buf selfPtrBuf.pos 6 :=
    hstep 5 (hstep 4 (hstep 3 (hstep 2 (hstep 1 (hstep 0 (.here 0))))))
  refine ⟨hops, (claim_C7_amended selfPtrBuf []).1 hops, ?_⟩
  obtain ⟨q, _, _, hstate, hfirst⟩ :=
    (claim_C7_amended selfPtrBuf []).2 rfl
  rw [hstate, hfirst (by decide)]

/-- A label length ≤ 63 is never mistaken for a compression pointer tag. -/
theorem and192_ne (n : Nat) (h : n ≤ 63) : ¬(n &&& 0xC0 = 0xC0) := by
  interval_cases n <;> decide

/-- `split('.')` always yields at least one piece. -/
theorem splitDot_ne_nil (l : Name) : splitDot l ≠ [] := by
  cases l with
  | nil => simp [splitDot]
  | cons c rest =>
    unfold splitDot
    split <;> simp

/-- The full wire form is the label part plus the terminator octet. -/
theorem wireOf_eq_labelsWire (labels : List (List Nat)) :
    wireOf labels = labelsWire labels ++ [0] := by
  induction labels with
  | nil => rfl
  | cons l ls ih => simp [wireOf, labelsWire] at ih ⊢; simp [ih]

/-- The wire form is never empty (it ends in the terminator). -/
theorem wireOf_length_pos (labels : List (List Nat)) : 0 < (wireOf labels).length := by
  rw [wireOf_eq_labelsWire]; simp

/-- Each label contributes at least its length octet, and the terminator
is one more: fewer labels than wire octets. -/
theorem length_lt_wireOf (labels : List (List Nat)) :
    labels.length < (wireOf labels).length := by
  induction labels with
  | nil => simp [wireOf]
  | cons l ls ih => simp [wireOf] at ih ⊢; omega

/-- Joining with a leading dot versus a leading nothing differ by that dot. -/
theorem dotJoin_cons46 (L : List (List Nat)) (h : L ≠ []) :
    dotJoin [46] L = 46 :: dotJoin [] L := by
  cases L with
  | nil => exact absurd rfl h
  | cons x t => rfl

/-- Lowercasing then joining the split pieces with dots recovers the
lowercased string: dots are preserved by `lowerByte` and reinserted by
the join. -/
theorem dotJoin_splitDot (name : Name) :
    dotJoin [] ((splitDot name).map (List.map lowerByte)) = name.map lowerByte := by
  induction name with
  | nil => rfl
  | cons c rest ih =>
    by_cases hc : c = 46
    · subst hc
      rw [show splitDot (46 :: rest) = [] :: splitDot rest from by simp [splitDot]]
      rw [List.map_cons]
      rw [show dotJoin [] (([] : List Nat).map lowerByte :: (splitDot rest).map (List.map lowerByte)) =
        dotJoin [46] ((splitDot rest).map (List.map lowerByte)) from rfl]
      rw [dotJoin_cons46 _ (by simp [splitDot_ne_nil])]
      rw [ih]
      rfl
    · obtain ⟨h, t, hht⟩ : ∃ h t, splitDot rest = h :: t := by
        rcases hsp : splitDot rest with _ | ⟨h, t⟩
        · exact absurd hsp (splitDot_ne_nil rest)
        · exact ⟨h, t, rfl⟩
      rw [show splitDot (c :: rest) = (c :: (splitDot rest).headD []) :: (splitDot rest).tail
        from by simp [splitDot, hc]]
      rw [hht] at ih ⊢
      simp only [List.headD_cons, List.tail_cons, List.map_cons]
      have ih' : h.map lowerByte ++ dotJoin [46] (t.map (List.map lowerByte)) =
          rest.map lowerByte := by simpa [dotJoin] using ih
      show lowerByte c ::
        (h.map lowerByte ++ dotJoin [46] (t.map (List.map lowerByte))) =
        lowerByte c :: rest.map lowerByte
      rw [ih']

/-- `writeBytes` with room: succeeds, advances the cursor by the byte
count, stores the bytes in order, and touches nothing else. -/
theorem writeBytes_spec (bs : List Nat) :
    ∀ st : Buffer, st.pos + bs.length ≤ 512 →
    ∃ st', writeBytes st bs = (.ok (), st') ∧
      st'.pos = st.pos + bs.length ∧
      (∀ j, j < bs.length → st'.buf (st.pos + j) = bs.getD j 0) ∧
      (∀ i, i < st.pos ∨ st.pos + bs.length ≤ i → st'.buf i = st.buf i) := by
  induction bs with
  | nil =>
    intro st _
    exact ⟨st, rfl, by simp, by simp, fun i _ => rfl⟩
  | cons v rest ih =>
    intro st h
    have hpos : ¬st.pos ≥ 512 := by simp at h ⊢; omega
    have hw : st.writeU8 v =
        (.ok (), ⟨fun i => if i = st.pos then v else st.buf i, st.pos + 1⟩) := by
      unfold Buffer.writeU8
      rw [if_neg hpos]
    obtain ⟨st', heq, hpos', hin, hout⟩ :=
      ih ⟨fun i => if i = st.pos then v else st.buf i, st.pos + 1⟩
        (by show st.pos + 1 + rest.length ≤ 512; simp at h; omega)
    refine ⟨st', ?_, ?_, ?_, ?_⟩
    · unfold writeBytes
      rw [hw]
      exact heq
    · simp at hpos' ⊢; omega
    · intro j hj
      cases j with
      | zero =>
        have := hout st.pos (Or.inl (by show st.pos < st.pos + 1; omega))
        simp at this ⊢
        rw [this]
      | succ j' =>
        have := hin j' (by simp at hj ⊢; omega)
        rw [show st.pos + (j' + 1) = st.pos + 1 + j' by omega]
        simpa using this
    · intro i hi
      have h1 : st'.buf i = if i = st.pos then v else st.buf i := by
        apply hout
        rcases hi with hi | hi
        · exact Or.inl (by show i < st.pos + 1; omega)
        · refine Or.inr ?_
          show st.pos + 1 + rest.length ≤ i
          simp at hi
          omega
      rw [h1, if_neg (by
        rcases hi with hi | hi
        · omega
        · simp at hi; omega)]

/-- One label write with room: length octet then the label octets. -/
theorem writeLabel_spec (l : List Nat) (st : Buffer) (hl : l.length ≤ 63)
    (hroom : st.pos + 1 + l.length ≤ 512) :
    ∃ st', writeLabel st l = (.ok (), st') ∧
      st'.pos = st.pos + 1 + l.length ∧
      st'.buf st.pos = l.length ∧
      (∀ j, j < l.length → st'.buf (st.pos + 1 + j) = l.getD j 0) ∧
      (∀ i, i < st.pos ∨ st.pos + 1 + l.length ≤ i → st'.buf i = st.buf i) := by
  have hpos : ¬st.pos ≥ 512 := by omega
  have hw : st.writeU8 l.length =
      (.ok (), ⟨fun i => if i = st.pos then l.length else st.buf i, st.pos + 1⟩) := by
    unfold Buffer.writeU8
    rw [if_neg hpos]
  obtain ⟨st', heq, hpos', hin, hout⟩ :=
    writeBytes_spec l ⟨fun i => if i = st.pos then l.length else st.buf i, st.pos + 1⟩
      (by show st.pos + 1 + l.length ≤ 512; omega)
  refine ⟨st', ?_, ?_, ?_, ?_, ?_⟩
  · unfold writeLabel
    rw [if_neg (by omega : ¬l.length > 63), hw]
    exact heq
  · simp at hpos' ⊢; omega
  · have := hout st.pos (Or.inl (by show st.pos < st.pos + 1; omega))
    simp at this
    rw [this]
  · intro j hj
    have := hin j (by simpa using hj)
    simpa [Nat.add_assoc] using this
  · intro i hi
    have h1 : st'.buf i = if i = st.pos then l.length else st.buf i := by
      apply hout
      rcases hi with hi | hi
      · exact Or.inl (by show i < st.pos + 1; omega)
      · exact Or.inr (by show st.pos + 1 + l.length ≤ i; omega)
    rw [h1, if_neg (by rcases hi with hi | hi <;> omega)]

/-- The label loop with room: emits `labelsWire` at the cursor. -/
theorem writeLabels_spec (labels : List (List Nat)) :
    ∀ st : Buffer, (∀ l ∈ labels, l.length ≤ 63) →
    st.pos + (labelsWire labels).length ≤ 512 →
    ∃ st', writeLabels st labels = (.ok (), st') ∧
      st'.pos = st.pos + (labelsWire labels).length ∧
      (∀ j, j < (labelsWire labels).length →
        st'.buf (st.pos + j) = (labelsWire labels).getD j 0) ∧
      (∀ i, i < st.pos ∨ st.pos + (labelsWire labels).length ≤ i →
        st'.buf i = st.buf i) := by
  induction labels with
  | nil =>
    intro st _ _
    exact ⟨st, rfl, by simp [labelsWire], by simp [labelsWire], fun i _ => rfl⟩
  | cons l ls ih =>
    intro st hlen hroom
    have hwl : labelsWire (l :: ls) = l.length :: (l ++ labelsWire ls) := rfl
    have hwlen : (labelsWire (l :: ls)).length =
        1 + l.length + (labelsWire ls).length := by
      simp [hwl]; omega
    rw [hwlen] at hroom
    obtain ⟨st1, heq1, hpos1, hat1, hin1, hout1⟩ :=
      writeLabel_spec l st (hlen l (by simp)) (by omega)
    obtain ⟨st', heq2, hpos2, hin2, hout2⟩ :=
      ih st1 (fun l' hl' => hlen l' (by simp [hl'])) (by omega)
    refine ⟨st', ?_, ?_, ?_, ?_⟩
    · unfold writeLabels
      rw [heq1]
      exact heq2
    · rw [hwlen]; omega
    · intro j hj
      rw [hwlen] at hj
      rcases Nat.lt_or_ge j (1 + l.length) with hcase | hcase
      · have hpres : st'.buf (st.pos + j) = st1.buf (st.pos + j) := by
          apply hout2
          exact Or.inl (by omega)
        rw [hpres]
        cases j with
        | zero =>
          simpa [hwl] using hat1
        | succ j' =>
          have := hin1 j' (by omega)
          rw [show st.pos + (j' + 1) = st.pos + 1 + j' by omega]
          rw [this, hwl]
          rw [show (l.length :: (l ++ labelsWire ls)).getD (j' + 1) 0 =
            (l ++ labelsWire ls).getD j' 0 from List.getD_cons_succ]
          rw [List.getD_append _ _ _ _ (by omega)]
      · have := hin2 (j - (1 + l.length)) (by omega)
        rw [hpos1] at this
        rw [show st.pos + 1 + l.length + (j - (1 + l.length)) = st.pos + j by omega]
          at this
        rw [this, hwl]
        rw [show j = (j - 1) + 1 by omega, List.getD_cons_succ]
        rw [List.getD_append_right _ _ _ _ (by omega)]
        congr 1
        omega
    · intro i hi
      have h2 : st'.buf i = st1.buf i := by
        apply hout2
        rw [hpos1]
        rcases hi with hi | hi
        · exact Or.inl (by omega)
        · exact Or.inr (by rw [hwlen] at hi; omega)
      rw [h2]
      apply hout1
      rcases hi with hi | hi
      · exact Or.inl hi
      · exact Or.inr (by rw [hwlen] at hi; omega)

/-- `write_qname` with nonempty labels (so the empty-label filter is the
identity) and room: emits the full wire form — length-prefixed labels and
the zero terminator — at the cursor. -/
theorem writeQname_spec (qname : Name) (st : Buffer)
    (hne : ∀ l ∈ splitDot qname, l ≠ [])
    (hlen : ∀ l ∈ splitDot qname, l.length ≤ 63)
    (hroom : st.pos + (wireOf (splitDot qname)).length ≤ 512) :
    ∃ st', st.writeQname qname = (.ok (), st') ∧
      st'.pos = st.pos + (wireOf (splitDot qname)).length ∧
      (∀ j, j < (wireOf (splitDot qname)).length →
        st'.buf (st.pos + j) = (wireOf (splitDot qname)).getD j 0) ∧
      (∀ i, i < st.pos ∨ st.pos + (wireOf (splitDot qname)).length ≤ i →
        st'.buf i = st.buf i) := by
  have hfilter : (splitDot qname).filter (fun l => !l.isEmpty) = splitDot qname :=
    List.filter_eq_self.mpr fun l hl => by
      simpa [List.isEmpty_iff] using hne l hl
  have hsplit : wireOf (splitDot qname) = labelsWire (splitDot qname) ++ [0] :=
    wireOf_eq_labelsWire _
  have hwlen : (wireOf (splitDot qname)).length =
      (labelsWire (splitDot qname)).length + 1 := by
    rw [hsplit]; simp
  rw [hwlen] at hroom
  obtain ⟨st1, heq1, hpos1, hin1, hout1⟩ :=
    writeLabels_spec (splitDot qname) st hlen (by omega)
  have hpos1' : ¬st1.pos ≥ 512 := by omega
  have hw0 : st1.writeU8 0 =
      (.ok (), ⟨fun i => if i = st1.pos then 0 else st1.buf i, st1.pos + 1⟩) := by
    unfold Buffer.writeU8
    rw [if_neg hpos1']
  refine ⟨⟨fun i => if i = st1.pos then 0 else st1.buf i, st1.pos + 1⟩, ?_, ?_, ?_, ?_⟩
  · unfold Buffer.writeQname
    rw [hfilter, heq1]
    exact hw0
  · show st1.pos + 1 = _
    rw [hwlen, hpos1]
    omega
  · intro j hj
    rw [hwlen] at hj
    show (if st.pos + j = st1.pos then 0 else st1.buf (st.pos + j)) = _
    rcases Nat.lt_or_ge j (labelsWire (splitDot qname)).length with hcase | hcase
    · rw [if_neg (by omega), hin1 j hcase, hsplit,
        List.getD_append _ _ _ _ (by omega)]
    · have hj1 : j = (labelsWire (splitDot qname)).length := by omega
      rw [if_pos (by omega), hsplit, hj1,
        List.getD_append_right _ _ _ _ (by omega)]
      simp
  · intro i hi
    show (if i = st1.pos then 0 else st1.buf i) = _
    rw [if_neg (by rcases hi with hi | hi <;> omega)]
    apply hout1
    rcases hi with hi | hi
    · exact Or.inl hi
    · exact Or.inr (by omega)

/-- Reading back a wire-encoded label sequence: the `read_qname` loop,
started unjumped at `p` over a buffer whose octets at `p` hold the wire
form, appends the lowercased dotted name to the accumulator and leaves
the shared cursor one past the terminator. -/
theorem readQnameLoop_wire (labels : List (List Nat)) :
    ∀ (st : Buffer) (p : Nat) (delim acc : List Nat) (fuel : Nat),
    (∀ l ∈ labels, l ≠ []) → (∀ l ∈ labels, l.length ≤ 63) →
    (∀ j, j < (wireOf labels).length →
      st.buf (p + j) = (wireOf labels).getD j 0) →
    p + (wireOf labels).length ≤ 512 →
    labels.length < fuel →
    readQnameLoop st p false 0 delim acc fuel =
      (.ok (acc ++ dotJoin delim (labels.map (List.map lowerByte))),
        { st with pos := p + (wireOf labels).length }) := by
  induction labels with
  | nil =>
    intro st p delim acc fuel _ _ hbytes hroom hfuel
    cases fuel with
    | zero => simp at hfuel
    | succ f =>
      have hp : ¬p ≥ 512 := by simp [wireOf] at hroom; omega
      have hb0 : st.buf p = 0 := by
        have := hbytes 0 (by simp [wireOf])
        simpa [wireOf] using this
      unfold readQnameLoop
      rw [if_neg (by decide : ¬((0 : Nat) > maxJumps))]
      rw [show st.getByte p = .ok (st.buf p) from by simp [Buffer.getByte, hp]]
      dsimp only
      rw [hb0]
      rw [if_neg (by decide : ¬((0 : Nat) &&& 0xC0 = 0xC0))]
      rw [if_pos rfl]
      simp [wireOf, dotJoin, cond]
  | cons l ls ih =>
    intro st p delim acc fuel hne hlen hbytes hroom hfuel
    cases fuel with
    | zero => simp at hfuel
    | succ f =>
      have hlne : l ≠ [] := hne l (by simp)
      have hllen : l.length ≤ 63 := hlen l (by simp)
      have hlpos : 0 < l.length := List.length_pos.mpr hlne
      have hwcons : wireOf (l :: ls) = l.length :: (l ++ wireOf ls) := rfl
      have hwlen : (wireOf (l :: ls)).length =
          1 + l.length + (wireOf ls).length := by
        rw [hwcons]; simp; omega
      have hwpos : 0 < (wireOf ls).length := wireOf_length_pos ls
      have hp : ¬p ≥ 512 := by rw [hwlen] at hroom; omega
      have hb0 : st.buf p = l.length := by
        have := hbytes 0 (by rw [hwlen]; omega)
        simpa [hwcons] using this
      unfold readQnameLoop
      rw [if_neg (by decide : ¬((0 : Nat) > maxJumps))]
      rw [show st.getByte p = .ok (st.buf p) from by simp [Buffer.getByte, hp]]
      dsimp only
      rw [hb0]
      rw [if_neg (and192_ne l.length hllen)]
      rw [if_neg (by omega : ¬l.length = 0)]
      have hrange : st.getByteRange (p + 1) l.length = .ok l := by
        unfold Buffer.getByteRange
        rw [if_neg (by rw [hwlen] at hroom; omega : ¬(p + 1 + l.length ≥ 512))]
        congr 1
        apply List.ext_getElem (by simp)
        intro i h1 h2
        simp only [List.getElem_map, List.getElem_range]
        simp at h1
        have hb := hbytes (1 + i) (by rw [hwlen]; omega)
        rw [show p + (1 + i) = p + 1 + i by omega] at hb
        rw [hb, hwcons, show (1 + i) = i + 1 by omega, List.getD_cons_succ,
          List.getD_append _ _ _ _ (by omega), List.getD_eq_getElem _ _ (by omega)]
      rw [hrange]
      dsimp only
      rw [ih st (p + 1 + l.length) [46] (acc ++ delim ++ l.map lowerByte) f
        (fun l' hl' => hne l' (by simp [hl']))
        (fun l' hl' => hlen l' (by simp [hl']))
        (fun j hj => by
          have hb := hbytes (1 + l.length + j) (by rw [hwlen]; omega)
          rw [show p + (1 + l.length + j) = p + 1 + l.length + j by omega] at hb
          rw [hb, hwcons, show 1 + l.length + j = (l.length + j) + 1 by omega,
            List.getD_cons_succ, List.getD_append_right _ _ _ _ (by omega)]
          congr 1
          omega)
        (by rw [hwlen] at hroom; omega)
        (by simp at hfuel; omega)]
      rw [hwlen]
      simp only [Prod.mk.injEq]
      constructor
      · simp [dotJoin, List.append_assoc]
      · congr 1
        omega

/-- C8: for every name whose dot-separated labels are nonempty, at most
63 octets, drawn from letters/digits/hyphen, and whose wire form fits in
255 octets, writing the name into a fresh buffer with `write_qname` and
decoding from position 0 with `read_qname` succeeds and yields exactly
the lowercase of the original name (with the cursor one past the
terminator). -/
theorem claim_C8_roundtrip (name : Name)
    (hvalid : ∀ l ∈ splitDot name, l ≠ [] ∧ l.length ≤ 63 ∧ ∀ c ∈ l, isLDHByte c)
    (hwire : (wireOf (splitDot name)).length ≤ 255) :
    (Buffer.new.writeQname name).1 = .ok () ∧
    (({ (Buffer.new.writeQname name).2 with pos := 0 } : Buffer).readQname []).1 =
      .ok (name.map lowerByte) ∧
    (({ (Buffer.new.writeQname name).2 with pos := 0 } : Buffer).readQname []).2.pos =
      (wireOf (splitDot name)).length := by
  have hne : ∀ l ∈ splitDot name, l ≠ [] := fun l hl => (hvalid l hl).1
  have hlen : ∀ l ∈ splitDot name, l.length ≤ 63 := fun l hl => (hvalid l hl).2.1
  obtain ⟨st', heq, hpos, hin, hout⟩ := writeQname_spec name Buffer.new hne hlen
    (by show 0 + (wireOf (splitDot name)).length ≤ 512; omega)
  have hread := readQnameLoop_wire (splitDot name)
    { st' with pos := 0 } 0 [] [] qnameFuel hne hlen
    (fun j hj => by
      have := hin j hj
      simpa [Buffer.new] using this)
    (by omega)
    (by
      have h1 := length_lt_wireOf (splitDot name)
      have h2 : qnameFuel = 4096 := rfl
      omega)
  rw [heq]
  dsimp only
  refine ⟨rfl, ?_, ?_⟩
  · unfold Buffer.readQname
    dsimp only
    rw [hread]
    simp [dotJoin_splitDot]
  · unfold Buffer.readQname
    dsimp only
    rw [hread]
    simp

/-- C8 witness: the round trip at the concrete mixed-case name
"ExAmple.COM". -/
theorem claim_C8_witness :
    (∀ l ∈ splitDot mixedCaseName, l ≠ [] ∧ l.length ≤ 63 ∧ ∀ c ∈ l, isLDHByte c) ∧
    (wireOf (splitDot mixedCaseName)).length ≤ 255 ∧
    (({ (Buffer.new.writeQname mixedCaseName).2 with pos := 0 } : Buffer).readQname
      []).1 = .ok (mixedCaseName.map lowerByte) :=
  ⟨by decide, by decide,
    (claim_C8_roundtrip mixedCaseName (by decide) (by decide)).2.1⟩

end SpecDNS
